import Mathlib

/-!
Verification of the query-translation and schema-derivation core of a
headless CMS repository.  The first half embeds the MongoDB query builder
(`buildSearchParam`, `buildQuery`); the second half embeds the JSON-schema
derivation engine (`fieldsToJSONSchema`, `configToJSONSchema`).
-/

set_option autoImplicit false

namespace Payload

/-- A JSON-ish value as produced by the query builder and the schema
derivation engine.  `objectId` models a BSON ObjectId built from a hex
string; `parsedFloat` models the JavaScript `parseFloat` applied to the
given source string (floating-point arithmetic itself is never inspected
by the code under verification); `undef` models the JavaScript
`undefined` value stored in an object property. -/
inductive JVal where
  | obj (kvs : List (String × JVal))
  | arr (xs : List JVal)
  | str (s : String)
  | num (n : Int)
  | bool (b : Bool)
  | null
  | undef
  | objectId (s : String)
  | parsedFloat (src : String)

/-- Association-list with JavaScript object / `Map.set` semantics: setting a
key overwrites the value at the key's first occurrence, keeping its
position, and otherwise appends the binding. -/
def mapSet {α : Type} : List (String × α) → String → α → List (String × α)
  | [], k, v => [(k, v)]
  | (k', v') :: rest, k, v =>
    if k' = k then (k', v) :: rest else (k', v') :: mapSet rest k v

/-- Object-spread semantics `\x7b...a, ...b\x7d`: every binding of `b` is
set into `a` in order. -/
def mergeAssoc {α : Type} (a b : List (String × α)) : List (String × α) :=
  b.foldl (fun m kv => mapSet m kv.1 kv.2) a

/-- `Set.add` semantics on an insertion-ordered string set. -/
def addUnique (xs : List String) (x : String) : List String :=
  if x ∈ xs then xs else xs ++ [x]

/-- Adding a whole list of names, in order, into an insertion-ordered set. -/
def addUniqueList (xs : List String) (ys : List String) : List String :=
  ys.foldl addUnique xs

/-! ## Query-side data model -/

/-- The `relationTo` attribute of a relationship/upload field: a single
collection slug or a list of slugs (polymorphic relationship). -/
inductive RelationTo where
  | one (slug : String)
  | many (slugs : List String)
  deriving DecidableEq

/-- The projection of a `Field` that the query builder inspects: its name,
its `type` tag and its relationship targets. -/
structure QField where
  name : String
  type : String
  relationTo : Option RelationTo := none
  deriving DecidableEq

/-- One segment of a resolved path (`PathToQuery` in the source). -/
structure PathToQuery where
  collectionSlug : Option String
  complete : Bool
  field : QField
  path : String
  deriving DecidableEq

/-- Per-collection metadata the query builder reads from `payload`. -/
structure QCollection where
  customIDType : Option String := none
  fields : List QField := []
  deriving DecidableEq

/-- The slice of the `payload` object used by the query builder. -/
structure PayloadModel where
  collections : List (String × QCollection) := []
  globals : List (String × List QField) := []
  deriving DecidableEq

/-- A `$lookup` aggregation stage.  `from_` models the source's `from`
property (a Lean keyword). -/
structure LookupStage where
  as : String
  foreignField : String
  from_ : String
  localField : String
  deriving DecidableEq

/-- The `SearchParam` returned by `buildSearchParam`; a raw query is
returned under `value` by the source. -/
structure SearchParam where
  path : Option String := none
  value : Option JVal := none

/-- Result of `buildSearchParam` with the mutations of the caller-supplied
`pipeline` array and `projection` object made explicit. -/
structure BuildOut where
  result : Option SearchParam
  pipeline : List LookupStage
  projection : Option (List (String × Bool))

/-- Arguments of `buildSearchParam`. -/
structure BuildArgs where
  collectionSlug : Option String := none
  fields : List QField := []
  globalSlug : Option String := none
  incomingPath : String
  locale : Option String := none
  operator : String
  payload : PayloadModel
  pipeline : List LookupStage := []
  projection : Option (List (String × Bool)) := none
  val : JVal

/-- Modelled from the spec: the path resolver `getLocalizedPaths` (spec
§4.1) is repository code that is not present in the sources; only its
call site is.  It is taken as an abstract parameter — the theorems below
quantify over the list of resolved `PathToQuery` segments it returns,
exactly as the spec's claims quantify over resolved paths.  Its argument
order mirrors the call site: collection slug, fields, global slug,
sanitized incoming path, locale, payload. -/
def GetPaths : Type :=
  Option String → List QField → Option String → String → Option String →
    PayloadModel → List PathToQuery

/-- The global regex replacement `incomingPath.replace(/__/g, '.')`:
left-to-right, non-overlapping. -/
def replaceDoubleUnderscore : List Char → List Char
  | [] => []
  | '_' :: '_' :: rest => '.' :: replaceDoubleUnderscore rest
  | c :: rest => c :: replaceDoubleUnderscore rest

/-- Path normalization of `buildSearchParam` lines 47-51: double
underscores become dots and the identity-field name is rewritten to the
backend identifier field. -/
def normalizePath (incomingPath : String) : String :=
  let sanitizedPath := String.mk (replaceDoubleUnderscore incomingPath.toList)
  if sanitizedPath = "id" then "_id" else sanitizedPath

/-- JavaScript `value.split(' ')`: split on every single space character,
keeping empty tokens (adjacent separators) and yielding one empty token
for the empty string. -/
def jsSplitSpaceAux : List Char → List (List Char)
  | [] => [[]]
  | ' ' :: rest => [] :: jsSplitSpaceAux rest
  | c :: rest =>
    match jsSplitSpaceAux rest with
    | w :: ws => (c :: w) :: ws
    | [] => [[c]]

/-- JavaScript `value.split(' ')` on a string. -/
def jsSplitOnSpace (s : String) : List String :=
  (jsSplitSpaceAux s.toList).map String.mk

/-- JavaScript `array.join('.')`. -/
def joinDot : List String → String
  | [] => ""
  | [s] => s
  | s :: rest => s ++ "." ++ joinDot rest

/-- JavaScript `slug.endsWith('s')`. -/
def strEndsWithS (s : String) : Bool :=
  match s.toList.getLast? with
  | some c => c == 's'
  | none => false

/-- `payload.collections[slug]?.customIDType`. -/
def customIDTypeOf (payload : PayloadModel) (slug : Option String) : Option String :=
  slug.bind fun s => (List.lookup s payload.collections).bind (·.customIDType)

/-- Lines 53-85 of `buildSearchParam`: the `_id` short circuit producing a
single complete segment typed by the collection's custom ID type
(default `text`), or the call out to the path resolver.  Returns the
resolved segments together with the `hasCustomID` flag. -/
def resolvePaths (g : GetPaths) (a : BuildArgs) (sanitizedPath : String) :
    List PathToQuery × Bool :=
  if sanitizedPath = "_id" then
    match customIDTypeOf a.payload a.collectionSlug with
    | some t =>
      ([{ collectionSlug := a.collectionSlug, complete := true,
          field := { name := "id", type := t }, path := "_id" }], true)
    | none =>
      ([{ collectionSlug := a.collectionSlug, complete := true,
          field := { name := "id", type := "text" }, path := "_id" }], false)
  else
    (g a.collectionSlug a.fields a.globalSlug sanitizedPath a.locale a.payload, false)

/-- Modelled from the spec: `sanitizeQueryValue` is repository code that is
not present in the sources.  The value formatting the spec attributes to
the translator (identifier ObjectId/numeric coercion, `like` regex
handling, spec §4.2-4.3) is performed by `buildSearchParam` itself; for
the fields and operators covered here the sanitizer passes the operator
and value through unchanged and yields no raw query. -/
structure SanitizeResult where
  operator : String
  rawQuery : Option JVal
  val : JVal

/-- Modelled from the spec: see `SanitizeResult`. -/
def sanitizeQueryValue (_field : QField) (_hasCustomID : Bool) (operator : String)
    (_path : String) (val : JVal) : SanitizeResult :=
  { operator := operator, rawQuery := none, val := val }

/-- Modelled from the spec: the fixed closed operator set (spec §3,
"Operator"). -/
def validOperators : List String :=
  ["equals", "contains", "not_equals", "exists", "greater_than",
   "greater_than_equal", "less_than", "less_than_equal", "like", "not_in",
   "in", "all", "near", "within", "intersects"]

/-- Modelled from the spec: `operatorMap`, the fixed mapping from abstract
operators to backend-native symbols (spec §4.3).  `near` has no simple
symbol — the caller detects the missing key and returns the formatted
value verbatim, matching the comment at lines 235-236 of the source. -/
def operatorMap (op : String) : Option String :=
  if op = "equals" then some "$eq"
  else if op = "not_equals" then some "$ne"
  else if op = "in" then some "$in"
  else if op = "not_in" then some "$nin"
  else if op = "all" then some "$all"
  else if op = "exists" then some "$exists"
  else if op = "greater_than" then some "$gt"
  else if op = "greater_than_equal" then some "$gte"
  else if op = "less_than" then some "$lt"
  else if op = "less_than_equal" then some "$lte"
  else if op = "like" then some "$regex"
  else if op = "contains" then some "$regex"
  else if op = "within" then some "$geoWithin"
  else if op = "intersects" then some "$geoIntersects"
  else none

/-- Modelled from the spec: BSON ObjectId validity for a string
(`mongoose.Types.ObjectId.isValid`), an external library call — a
24-character hexadecimal string. -/
def isValidObjectId (s : String) : Bool :=
  s.length = 24 &&
    s.toList.all fun c =>
      c.isDigit || ('a' ≤ c && c ≤ 'f') || ('A' ≤ c && c ≤ 'F')

/-- The collection name used in a `$lookup`, lines 134-136 of the source:
the slug itself when it already ends in `s`, otherwise the slug with `s`
appended.  A segment with no collection slug would make the source throw
a `TypeError`; resolved relationship segments always carry one. -/
def mongoFrom (slug : Option String) : String :=
  match slug with
  | some s => if strEndsWithS s then s else s ++ "s"
  | none => ""

/-- JavaScript string falsiness of the loop's `currentPath` variable:
`undefined` or the empty string. -/
def jsFalsyStr : Option String → Bool
  | none => true
  | some s => s == ""

/-- State of the `$lookup`-building `for` loop of lines 109-151. -/
structure LoopState where
  pipeline : List LookupStage
  projection : Option (List (String × Bool))
  currentPath : Option String
  isID : Bool

/-- The break condition `i + 1 === paths.length - 1 && paths[i + 1].path
=== 'id'`: the next segment is the last one and addresses `id`. -/
def nextIsLastId : List PathToQuery → Bool
  | [next] => next.path == "id"
  | _ => false

/-- The `for` loop of lines 113-151 of `buildSearchParam`, emitting one
`$lookup` stage per intermediate segment.  A template interpolation of an
undefined `currentPath` would render as the string `undefined` in
JavaScript, hence the `getD "undefined"`. -/
def buildLookupsAux : List PathToQuery → Nat → LoopState → LoopState
  | [], _, st => st
  | p :: rest, i, st =>
    let st1 : LoopState :=
      if jsFalsyStr st.currentPath then
        { st with currentPath := some p.path }
      else st
    if nextIsLastId rest then { st1 with isID := true }
    else if i = 0 then buildLookupsAux rest (i + 1) st1
    else
      let cur := st1.currentPath.getD "undefined"
      let stage : LookupStage :=
        { as := "_" ++ cur, foreignField := "_id",
          from_ := mongoFrom p.collectionSlug,
          localField := if i = 1 then cur else "_" ++ cur }
      let proj :=
        if i = 1 then st1.projection.map (fun m => mapSet m ("_" ++ cur) false)
        else st1.projection
      let newCur :=
        if jsFalsyStr st1.currentPath then some p.path
        else some (cur ++ "." ++ p.path)
      buildLookupsAux rest (i + 1)
        { pipeline := st1.pipeline ++ [stage], projection := proj,
          currentPath := newCur, isID := st1.isID }

/-- Lines 153-165: the storage path the final comparison is applied at
after crossing relationships — the bare first-segment path for the
length-2-ending-in-id case, otherwise the `_`-prefixed accumulated alias
path with the segment before a final `id` hop dropped. -/
def joinedPath (paths : List PathToQuery) : String :=
  if paths.length = 2 ∧ (paths.get? 1).map (·.path) = some "id" then
    ((paths.get? 0).map (·.path)).getD "undefined"
  else
    "_" ++ joinDot
      ((paths.mapIdx fun i p =>
          if i + 1 = paths.length - 1 ∧ (paths.get? (i + 1)).map (·.path) = some "id"
          then "" else p.path).filter (fun s => s ≠ ""))

/-- `relationTo` normalization of lines 194: a non-array target becomes a
one-element array; an absent target property reads as `undefined`. -/
def relationToList (f : QField) : List (Option String) :=
  match f.relationTo with
  | some (.many ss) => ss.map some
  | some (.one s) => [some s]
  | none => [none]

/-- Lines 194-203: whether any declared target collection of the field
uses a numeric custom ID type. -/
def hasNumberIDRelation (f : QField) (payload : PayloadModel) : Bool :=
  (relationToList f).any fun r =>
    match r.bind fun s => (List.lookup s payload.collections).bind (·.customIDType) with
    | some t => t == "number"
    | none => false

/-- The regex metacharacter escaping of line 226:
`word.replace(/[\\^$*+?.()|[\]\x7b\x7d]/g, '\\$&')`. -/
def regexEscape (w : String) : String :=
  String.join (w.toList.map fun c =>
    if c ∈ ['\\', '^', '$', '*', '+', '?', '.', '(', ')', '|', '[', ']', '\x7b', '\x7d']
    then String.mk ['\\', c] else String.mk [c])

/-- One `like` conjunct (lines 223-228): a case-insensitive partial match
of one escaped token at the given path. -/
def likeFragment (path : String) (w : String) : JVal :=
  .obj [(path, .obj [("$options", .str "i"), ("$regex", .str (regexEscape w))])]

/-- Lines 172-248: the operator section of `buildSearchParam`, which only
reads state and produces the returned `SearchParam` (the pipeline is not
touched after the loop).  A JavaScript computed key evaluating to
`undefined` renders as the string `undefined`. -/
def searchParamResult (payload : PayloadModel) (paths : List PathToQuery)
    (field : QField) (path : String) (formattedValue : JVal) (fop : String) :
    Option SearchParam :=
  if validOperators.contains fop then
    let operatorKey := operatorMap fop
    let opKeyStr := operatorKey.getD "undefined"
    let fallback : Option SearchParam :=
      match operatorKey with
      | none => some { path := some path, value := some formattedValue }
      | some k => some { path := some path, value := some (.obj [(k, formattedValue)]) }
    let multiID : Option SearchParam :=
      if paths.length < 2 ∧ (field.type = "relationship" ∨ field.type = "upload") then
        let multiIDCondition := if operatorKey = some "$ne" then "$and" else "$or"
        let base := [JVal.obj [(path, .obj [(opKeyStr, formattedValue)])]]
        let branches :=
          match formattedValue with
          | .str s =>
            if isValidObjectId s then
              base ++ [JVal.obj [(path, .obj [(opKeyStr, .objectId s)])]]
            else if hasNumberIDRelation field payload then
              base ++ [JVal.obj [(path, .obj [(opKeyStr, .parsedFloat s)])]]
            else base
          | _ => base
        if branches.length > 1 then
          some { path := none, value := some (.obj [(multiIDCondition, .arr branches)]) }
        else none
      else none
    match multiID with
    | some r => some r
    | none =>
      if fop = "like" then
        match formattedValue with
        | .str s =>
          some { path := none,
                 value := some (.obj [("$and", .arr ((jsSplitOnSpace s).map (likeFragment path)))]) }
        | _ => fallback
      else fallback
  else none

/-- The full `buildSearchParam` of the source, with the mutations of the
caller-supplied `pipeline` and `projection` returned explicitly.  An
empty resolver result would make the source throw at `paths[0].path`;
a resolver meeting its contract returns at least one segment. -/
def buildSearchParam (g : GetPaths) (a : BuildArgs) : BuildOut :=
  let sanitizedPath := normalizePath a.incomingPath
  let pr := resolvePaths g a sanitizedPath
  let paths := pr.1
  let hasCustomID := pr.2
  match paths.head? with
  | none => { result := none, pipeline := a.pipeline, projection := a.projection }
  | some p0 =>
    if p0.path = "" then
      { result := none, pipeline := a.pipeline, projection := a.projection }
    else
      let sres := sanitizeQueryValue p0.field hasCustomID a.operator p0.path a.val
      match sres.rawQuery with
      | some rq =>
        { result := some { path := none, value := some rq },
          pipeline := a.pipeline, projection := a.projection }
      | none =>
        let st0 : LoopState :=
          { pipeline := a.pipeline, projection := a.projection,
            currentPath := none, isID := false }
        let st := if paths.length > 1 then buildLookupsAux paths 0 st0 else st0
        let path := if paths.length > 1 then joinedPath paths else p0.path
        let formattedValue :=
          if st.isID then
            match sres.val with
            | .str s => JVal.objectId s
            | v => v
          else sres.val
        { result := searchParamResult a.payload paths p0.field path formattedValue sres.operator,
          pipeline := st.pipeline, projection := st.projection }

/-! ## The `Where` tree and `buildQuery` -/

/-- A `Where` expression tree: conjunction/disjunction nodes or a leaf
mapping a field path to an operator/value pair (spec §3). -/
inductive WhereNode where
  | and (cs : List WhereNode)
  | or (cs : List WhereNode)
  | leaf (path : String) (op : String) (val : JVal)

mutual

/-- Modelled from the spec: `parseParams` is repository code that is not
present in the sources; only its caller `buildQuery` and its leaf worker
`buildSearchParam` are.  Per spec §4.2 it recursively evaluates `and`/`or`
connectors, threading the shared pipeline, and translates each leaf
through `buildSearchParam`.  `buildSearchParam` (which is in the sources)
returns `undefined` for an operator outside the fixed set, handing
`parseParams` no error signal, so such a leaf contributes an empty
constraint. -/
def parseParams (g : GetPaths) (payload : PayloadModel)
    (collectionSlug globalSlug : Option String) (fields : List QField)
    (locale : Option String) (projection : Option (List (String × Bool))) :
    WhereNode → List LookupStage → JVal × List LookupStage
  | .and cs, pl =>
    let r := parseParamsList g payload collectionSlug globalSlug fields locale projection cs pl
    (.obj [("$and", .arr r.1)], r.2)
  | .or cs, pl =>
    let r := parseParamsList g payload collectionSlug globalSlug fields locale projection cs pl
    (.obj [("$or", .arr r.1)], r.2)
  | .leaf path op v, pl =>
    let out := buildSearchParam g
      { collectionSlug := collectionSlug, fields := fields, globalSlug := globalSlug,
        incomingPath := path, locale := locale, operator := op, payload := payload,
        pipeline := pl, projection := projection, val := v }
    match out.result with
    | some sp =>
      match sp.path, sp.value with
      | some p, some v' => (.obj [(p, v')], out.pipeline)
      | none, some v' => (v', out.pipeline)
      | _, _ => (.obj [], out.pipeline)
    | none => (.obj [], out.pipeline)

/-- Modelled from the spec: translation of the ordered children of a
connector node, threading the pipeline left to right. -/
def parseParamsList (g : GetPaths) (payload : PayloadModel)
    (collectionSlug globalSlug : Option String) (fields : List QField)
    (locale : Option String) (projection : Option (List (String × Bool))) :
    List WhereNode → List LookupStage → List JVal × List LookupStage
  | [], pl => ([], pl)
  | c :: rest, pl =>
    let r := parseParams g payload collectionSlug globalSlug fields locale projection c pl
    let rs := parseParamsList g payload collectionSlug globalSlug fields locale projection rest r.2
    (r.1 :: rs.1, rs.2)

end

/-- `buildQuery` from `src/packages/db-mongodb/src/queries/buildQuery.ts`:
selects the field list (versions fields, else the global's, overridden by
the collection's), runs `parseParams`, and throws a `QueryError` when its
local `errors` list is non-empty.  Nothing ever appends to that list. -/
def buildQuery (g : GetPaths) (versionsFields : Option (List QField))
    (payload : PayloadModel) (collectionSlug globalSlug : Option String)
    (locale : Option String) (projection : Option (List (String × Bool)))
    (w : WhereNode) (pipeline : List LookupStage) :
    Except (List String) JVal :=
  let fields : List QField :=
    match versionsFields with
    | some vf => vf
    | none =>
      let fromGlobal := globalSlug.bind fun gs => List.lookup gs payload.globals
      let fromCollection :=
        collectionSlug.bind fun cs => (List.lookup cs payload.collections).map (·.fields)
      match fromCollection with
      | some f => f
      | none => fromGlobal.getD []
  let errors : List String := []
  let result :=
    (parseParams g payload collectionSlug globalSlug fields locale projection w pipeline).1
  if errors.length > 0 then .error errors else .ok result

/-! ## Schema-side data model -/

/-- A `select`/`radio` option: a bare value string or an object carrying a
`value` property. -/
inductive OptionV where
  | plain (s : String)
  | withValue (value : String)

/-- A rich-text editor configuration: still in function (unsanitized) form,
or sanitized with an optional `outputSchema` generator.  The generator is
modelled as a pure function of `isRequired` (the source also hands it the
config, field and definitions map). -/
inductive EditorConfig where
  | unsanitized
  | sanitized (outputSchema : Option (Bool → JVal))

mutual

/-- The recursive schema-side `Field`.  Constructor arguments, in order:
`type`, `name`, `required`, `condition` (presence of `admin.condition`),
`hasMany`, `options`, `fields`, `blocks`, `tabs`, `relationTo`,
`interfaceName`, `editor`, `jsonSchemaOverride` (the `jsonSchema.schema`
of a json field), `typescriptSchema` (custom schema transforms), and
`collection` (of a join field). -/
inductive Field where
  | mk (type : String) (name : Option String) (required : Bool)
      (condition : Bool) (hasMany : Bool) (options : List OptionV)
      (fields : List Field) (blocks : List BlockDef) (tabs : List TabDef)
      (relationTo : Option RelationTo) (interfaceName : Option String)
      (editor : Option EditorConfig) (jsonSchemaOverride : Option JVal)
      (typescriptSchema : List (Option JVal → JVal)) (collection : Option String)

/-- A named block of a `blocks` field. -/
inductive BlockDef where
  | mk (slug : String) (interfaceName : Option String) (fields : List Field)

/-- A tab of a `tabs` field; a named tab nests as an object, an unnamed
one is transparent. -/
inductive TabDef where
  | mk (name : Option String) (fields : List Field)

end

def Field.type : Field → String
  | .mk t _ _ _ _ _ _ _ _ _ _ _ _ _ _ => t

def Field.name : Field → Option String
  | .mk _ n _ _ _ _ _ _ _ _ _ _ _ _ _ => n

def Field.required : Field → Bool
  | .mk _ _ r _ _ _ _ _ _ _ _ _ _ _ _ => r

def Field.condition : Field → Bool
  | .mk _ _ _ c _ _ _ _ _ _ _ _ _ _ _ => c

def Field.hasMany : Field → Bool
  | .mk _ _ _ _ h _ _ _ _ _ _ _ _ _ _ => h

def Field.options : Field → List OptionV
  | .mk _ _ _ _ _ o _ _ _ _ _ _ _ _ _ => o

def Field.fields : Field → List Field
  | .mk _ _ _ _ _ _ fs _ _ _ _ _ _ _ _ => fs

def Field.blocks : Field → List BlockDef
  | .mk _ _ _ _ _ _ _ bs _ _ _ _ _ _ _ => bs

def Field.tabs : Field → List TabDef
  | .mk _ _ _ _ _ _ _ _ ts _ _ _ _ _ _ => ts

def Field.relationTo : Field → Option RelationTo
  | .mk _ _ _ _ _ _ _ _ _ r _ _ _ _ _ => r

def Field.interfaceName : Field → Option String
  | .mk _ _ _ _ _ _ _ _ _ _ i _ _ _ _ => i

def Field.editor : Field → Option EditorConfig
  | .mk _ _ _ _ _ _ _ _ _ _ _ e _ _ _ => e

def Field.jsonSchemaOverride : Field → Option JVal
  | .mk _ _ _ _ _ _ _ _ _ _ _ _ j _ _ => j

def Field.typescriptSchema : Field → List (Option JVal → JVal)
  | .mk _ _ _ _ _ _ _ _ _ _ _ _ _ ts _ => ts

def Field.collection : Field → Option String
  | .mk _ _ _ _ _ _ _ _ _ _ _ _ _ _ c => c

/-- A field with the given type and name and every other attribute at its
default. -/
def Field.base (type : String) (name : Option String) : Field :=
  .mk type name false false false [] [] [] [] none none none none [] none

/-- Replace a field's `required` attribute (the source mutates the copied
field object in place). -/
def Field.setRequired : Field → Bool → Field
  | .mk t n _ c h o fs bs ts r i e j tss col, b =>
    .mk t n b c h o fs bs ts r i e j tss col

/-- Modelled from the spec: `fieldAffectsData` lives in the field-config
module, which is not present in the sources.  Per the spec (§3, Field
invariant) a field's data-affecting status is determined solely by its
type plus presence of `name`: layout kinds (`row`, `collapsible`, `tabs`,
`ui`) never affect data directly. -/
def fieldAffectsData (f : Field) : Bool :=
  f.name.isSome &&
    !(f.type == "row" || f.type == "collapsible" || f.type == "tabs" || f.type == "ui")

mutual

/-- `fieldIsRequired` of `configToJSONSchema.ts` lines 19-46: conditional
fields are never required; a data-affecting field marked required is; a
composite (non-array) field with a required subfield is; a tabs field
with a required field inside a named tab is. -/
def fieldIsRequired (f : Field) : Bool :=
  match f with
  | .mk t n req cond _ _ fs _ tbs _ _ _ _ _ _ =>
    if cond then false
    else if (n.isSome &&
        !(t == "row" || t == "collapsible" || t == "tabs" || t == "ui")) && req then true
    else if t == "row" || t == "collapsible" || t == "group" then fieldsSomeRequired fs
    else if t == "tabs" then tabsSomeRequired tbs
    else false

/-- `fields.some((subField) => fieldIsRequired(subField))`. -/
def fieldsSomeRequired : List Field → Bool
  | [] => false
  | f :: rest => fieldIsRequired f || fieldsSomeRequired rest

/-- The tabs clause of `fieldIsRequired`: only named tabs propagate
requiredness. -/
def tabsSomeRequired : List TabDef → Bool
  | [] => false
  | .mk tn tfs :: rest =>
    (if tn.isSome then fieldsSomeRequired tfs else false) || tabsSomeRequired rest

end

/-- The option-value extraction of lines 48-56. -/
def buildOptionEnums (options : List OptionV) : List String :=
  options.map fun o =>
    match o with
    | .withValue v => v
    | .plain s => s

/-- `withNullableJSONSchemaType` of lines 142-152: the bare type for a
required field, otherwise the two-element array with `null` appended.
The source types the first argument as a JSON-Schema type-name string;
it is taken as a `JVal` here so that an undefined collection-ID lookup
flows through exactly as in JavaScript. -/
def withNullableJSONSchemaType (fieldType : JVal) (isRequired : Bool) : JVal :=
  if isRequired then fieldType else .arr [fieldType, .str "null"]

/-- `collectionIDFieldTypes[slug]` as a schema `type` value: the mapped
type-name string, or `undefined` when the slug is absent. -/
def citLookup (cit : List (String × String)) (slug : Option String) : JVal :=
  match slug.bind fun s => List.lookup s cit with
  | some t => .str t
  | none => (.undef)

/-- `#/definitions/...` reference object; an undefined interpolated name
renders as the string `undefined` in JavaScript. -/
def refDefinition (name : Option String) : JVal :=
  .obj [("$ref", .str ("#/definitions/" ++ name.getD "undefined"))]

/-- A branch of a polymorphic relationship under `hasMany` (lines
334-355). -/
def polyBranchMany (cit : List (String × String)) (relation : String) : JVal :=
  .obj [("type", .str "object"), ("additionalProperties", .bool false),
        ("properties", .obj
          [("relationTo", .obj [("const", .str relation)]),
           ("value", .obj [("oneOf", .arr
             [.obj [("type", citLookup cit (some relation))],
              refDefinition (some relation)])])]),
        ("required", .arr [.str "value", .str "relationTo"])]

/-- A branch of a polymorphic relationship without `hasMany` (lines
360-381). -/
def polyBranchOne (cit : List (String × String)) (isRequired : Bool)
    (relation : String) : JVal :=
  .obj [("type", withNullableJSONSchemaType (.str "object") isRequired),
        ("additionalProperties", .bool false),
        ("properties", .obj
          [("relationTo", .obj [("const", .str relation)]),
           ("value", .obj [("oneOf", .arr
             [.obj [("type", citLookup cit (some relation))],
              refDefinition (some relation)])])]),
        ("required", .arr [.str "value", .str "relationTo"])]

/-- The `field.typescriptSchema` fold of lines 566-570. -/
def applyTsSchema (tss : List (Option JVal → JVal)) (init : Option JVal) : Option JVal :=
  tss.foldl (fun c f => some (f c)) init

/-- The `loginWithUsername` auth option object. -/
structure AuthLWU where
  allowEmailLogin : Bool := false
  requireEmail : Bool := false
  requireUsername : Bool := false

/-- A collection's auth configuration (`none` models a non-auth
collection). -/
structure AuthConfig where
  disableLocalStrategy : Bool := false
  loginWithUsername : Option AuthLWU := none

/-- A sanitized collection or global configuration as read by the schema
derivation: slug, fields, timestamps (`none` when the entity has no
timestamps property, e.g. globals), auth, and the optional
`typescript.interface` override. -/
structure Entity where
  slug : String
  fields : List Field
  timestamps : Option Bool := none
  auth : Option AuthConfig := none
  typescriptInterface : Option String := none

/-- A job task definition; an absent input/output schema is the empty
list (the source checks `?.length`). -/
structure TaskDef where
  slug : String
  inputSchema : List Field := []
  outputSchema : List Field := []

/-- A job workflow definition. -/
structure WorkflowDef where
  slug : String
  inputSchema : List Field := []

/-- The jobs configuration. -/
structure JobsConfig where
  tasks : List TaskDef := []
  workflows : List WorkflowDef := []

/-- The slice of the sanitized config consumed by `configToJSONSchema`:
collections, globals, localization locale codes (`none` when
localization is disabled), jobs, `db.defaultIDType`, and the
`typescript.schema` transform list. -/
structure ConfigModel where
  collections : List Entity := []
  globals : List Entity := []
  localization : Option (List String) := none
  jobs : Option JobsConfig := none
  defaultIDTypeDb : Option String := none
  typescriptSchema : List (JVal → JVal) := []

/-- Schema-derivation failures: the two throws of the richText case
(lines 228-234) — a missing editor (`MissingEditorProp`) and an editor
still in function form. -/
inductive DeriveErr where
  | missingEditor (field : Field)
  | unsanitizedEditor

/-- The top-level `interfaceName` definitions map. -/
abbrev Defs := List (String × JVal)

/-- Accumulator of the `fields.reduce` of `fieldsToJSONSchema`: the
`fieldSchemas` map, the shared `requiredFieldNames` set, and the
threaded interface-definitions map. -/
structure FAcc where
  fieldSchemas : List (String × JVal)
  requiredNames : List String
  defs : Defs

mutual

/-- The `fields.reduce` spine of `fieldsToJSONSchema` (lines 176-577),
processing fields in order and short-circuiting on a thrown error. -/
def fieldsToJSONSchemaAux (cit : List (String × String)) (cfg : Option ConfigModel) :
    List Field → FAcc → Except DeriveErr FAcc
  | [], acc => .ok acc
  | f :: rest, acc =>
    match stepField cit cfg acc f with
    | .error e => .error e
    | .ok acc1 => fieldsToJSONSchemaAux cit cfg rest acc1

/-- One iteration of the reduce: the required-name bookkeeping, the
per-kind `switch`, the `typescriptSchema` fold and the final
`fieldSchemas.set` (lines 177-576). -/
def stepField (cit : List (String × String)) (cfg : Option ConfigModel)
    (acc : FAcc) (f : Field) : Except DeriveErr FAcc :=
  match f with
  | .mk t n _req _cond hM opts fs bs tbs rel iface ed js tss col =>
    let isReq := fieldAffectsData f && fieldIsRequired f
    let req1 :=
      if isReq then addUnique acc.requiredNames (n.getD "undefined")
      else acc.requiredNames
    if t = "row" ∨ t = "collapsible" then
      match fieldsToJSONSchemaAux cit cfg fs
          { fieldSchemas := [], requiredNames := [], defs := acc.defs } with
      | .error e => .error e
      | .ok c =>
        .ok { fieldSchemas := mergeAssoc acc.fieldSchemas c.fieldSchemas,
              requiredNames := addUniqueList req1 c.requiredNames,
              defs := c.defs }
    else if t = "tabs" then
      tabsStep cit cfg tbs
        { fieldSchemas := acc.fieldSchemas, requiredNames := req1, defs := acc.defs }
    else
      let core : Except DeriveErr (Option JVal × Defs) :=
        if t = "text" then
          .ok (some (if hM then
              .obj [("type", withNullableJSONSchemaType (.str "array") isReq),
                    ("items", .obj [("type", .str "string")])]
            else .obj [("type", withNullableJSONSchemaType (.str "string") isReq)]),
            acc.defs)
        else if t = "textarea" ∨ t = "code" ∨ t = "email" ∨ t = "date" then
          .ok (some (.obj [("type", withNullableJSONSchemaType (.str "string") isReq)]),
            acc.defs)
        else if t = "number" then
          .ok (some (if hM then
              .obj [("type", withNullableJSONSchemaType (.str "array") isReq),
                    ("items", .obj [("type", .str "number")])]
            else .obj [("type", withNullableJSONSchemaType (.str "number") isReq)]),
            acc.defs)
        else if t = "checkbox" then
          .ok (some (.obj [("type", withNullableJSONSchemaType (.str "boolean") isReq)]),
            acc.defs)
        else if t = "json" then
          .ok (some (js.getD (.obj [("type", .arr
              [.str "object", .str "array", .str "string",
               .str "number", .str "boolean", .str "null"])])), acc.defs)
        else if t = "richText" then
          match ed with
          | none => .error (.missingEditor f)
          | some .unsanitized => .error .unsanitizedEditor
          | some (.sanitized os) =>
            match os with
            | some gen => .ok (some (gen isReq), acc.defs)
            | none =>
              .ok (some (.obj [("type", withNullableJSONSchemaType (.str "array") isReq),
                               ("items", .obj [("type", .str "object")])]), acc.defs)
        else if t = "radio" then
          .ok (some (.obj [("type", withNullableJSONSchemaType (.str "string") isReq),
                           ("enum", .arr ((buildOptionEnums opts).map .str))]), acc.defs)
        else if t = "select" then
          .ok (some (if hM then
              .obj [("type", withNullableJSONSchemaType (.str "array") isReq),
                    ("items", .obj [("type", .str "string"),
                                    ("enum", .arr ((buildOptionEnums opts).map .str))])]
            else
              .obj [("type", withNullableJSONSchemaType (.str "string") isReq),
                    ("enum", .arr ((buildOptionEnums opts).map .str))]), acc.defs)
        else if t = "point" then
          .ok (some (.obj [("type", withNullableJSONSchemaType (.str "array") isReq),
                           ("items", .arr [.obj [("type", .str "number")],
                                           .obj [("type", .str "number")]]),
                           ("maxItems", .num 2), ("minItems", .num 2)]), acc.defs)
        else if t = "join" then
          .ok (some (.obj [("type", withNullableJSONSchemaType (.str "object") false),
                           ("additionalProperties", .bool false),
                           ("properties", .obj
                             [("docs", .obj
                               [("type", withNullableJSONSchemaType (.str "array") false),
                                ("items", .obj [("oneOf", .arr
                                  [.obj [("type", citLookup cit col)],
                                   refDefinition col])])]),
                              ("hasNextPage", .obj
                               [("type", withNullableJSONSchemaType (.str "boolean") false)])])]),
            acc.defs)
        else if t = "upload" ∨ t = "relationship" then
          match rel with
          | some (.many rels) =>
            if hM then
              .ok (some (.obj [("type", withNullableJSONSchemaType (.str "array") isReq),
                               ("items", .obj [("oneOf", .arr (rels.map (polyBranchMany cit)))])]),
                acc.defs)
            else
              .ok (some (.obj [("oneOf", .arr (rels.map (polyBranchOne cit isReq)))]), acc.defs)
          | _ =>
            let relKey : Option String :=
              match rel with
              | some (.one s) => some s
              | _ => none
            if hM then
              .ok (some (.obj [("type", withNullableJSONSchemaType (.str "array") isReq),
                               ("items", .obj [("oneOf", .arr
                                 [.obj [("type", citLookup cit relKey)],
                                  refDefinition relKey])])]), acc.defs)
            else
              .ok (some (.obj [("oneOf", .arr
                  [.obj [("type", withNullableJSONSchemaType (citLookup cit relKey) isReq)],
                   refDefinition relKey])]), acc.defs)
        else if t = "blocks" then
          match blocksToItems cit cfg bs acc.defs with
          | .error e => .error e
          | .ok (items, defs1) =>
            .ok (some (.obj [("type", withNullableJSONSchemaType (.str "array") isReq),
                             ("items", if bs.isEmpty then .obj []
                               else .obj [("oneOf", .arr items)])]), defs1)
        else if t = "array" then
          match fieldsToJSONSchemaAux cit cfg fs
              { fieldSchemas := [], requiredNames := [], defs := acc.defs } with
          | .error e => .error e
          | .ok c =>
            let base := JVal.obj
              [("type", withNullableJSONSchemaType (.str "array") isReq),
               ("items", .obj [("type", .str "object"),
                               ("additionalProperties", .bool false),
                               ("properties", .obj c.fieldSchemas),
                               ("required", .arr (c.requiredNames.map .str))])]
            match iface with
            | some nm => .ok (some (refDefinition (some nm)), mapSet c.defs nm base)
            | none => .ok (some base, c.defs)
        else if t = "group" then
          match fieldsToJSONSchemaAux cit cfg fs
              { fieldSchemas := [], requiredNames := [], defs := acc.defs } with
          | .error e => .error e
          | .ok c =>
            let base := JVal.obj
              [("type", .str "object"), ("additionalProperties", .bool false),
               ("properties", .obj c.fieldSchemas),
               ("required", .arr (c.requiredNames.map .str))]
            match iface with
            | some nm => .ok (some (refDefinition (some nm)), mapSet c.defs nm base)
            | none => .ok (some base, c.defs)
        else .ok (none, acc.defs)
      match core with
      | .error e => .error e
      | .ok (fsc, defs1) =>
        .ok (match applyTsSchema tss fsc with
             | some v =>
               if fieldAffectsData f then
                 { fieldSchemas := mapSet acc.fieldSchemas (n.getD "undefined") v,
                   requiredNames := req1, defs := defs1 }
               else { fieldSchemas := acc.fieldSchemas, requiredNames := req1, defs := defs1 }
             | none => { fieldSchemas := acc.fieldSchemas, requiredNames := req1, defs := defs1 })

/-- The `field.blocks.map` of lines 427-456: derive each block's fields,
tag with the block discriminant, lift interface-named blocks into the
definitions map and reference them. -/
def blocksToItems (cit : List (String × String)) (cfg : Option ConfigModel) :
    List BlockDef → Defs → Except DeriveErr (List JVal × Defs)
  | [], defs => .ok ([], defs)
  | .mk slug iface bfs :: rest, defs =>
    match fieldsToJSONSchemaAux cit cfg bfs
        { fieldSchemas := [], requiredNames := [], defs := defs } with
    | .error e => .error e
    | .ok c =>
      let blockSchema := JVal.obj
        [("type", .str "object"), ("additionalProperties", .bool false),
         ("properties", .obj (mapSet c.fieldSchemas "blockType"
           (.obj [("const", .str slug)]))),
         ("required", .arr (.str "blockType" :: c.requiredNames.map .str))]
      let next :=
        match iface with
        | some nm => (refDefinition (some nm), mapSet c.defs nm blockSchema)
        | none => (blockSchema, c.defs)
      match blocksToItems cit cfg rest next.2 with
      | .error e => .error e
      | .ok (items, defs2) => .ok (next.1 :: items, defs2)

/-- The `field.tabs.forEach` of lines 506-535: a named tab nests as an
object (required when any of its fields is), an unnamed tab merges its
children like a row. -/
def tabsStep (cit : List (String × String)) (cfg : Option ConfigModel) :
    List TabDef → FAcc → Except DeriveErr FAcc
  | [], acc => .ok acc
  | .mk tn tfs :: rest, acc =>
    match fieldsToJSONSchemaAux cit cfg tfs
        { fieldSchemas := [], requiredNames := [], defs := acc.defs } with
    | .error e => .error e
    | .ok c =>
      let acc1 : FAcc :=
        match tn with
        | some nm =>
          { fieldSchemas := mapSet acc.fieldSchemas nm
              (.obj [("type", .str "object"), ("additionalProperties", .bool false),
                     ("properties", .obj c.fieldSchemas),
                     ("required", .arr (c.requiredNames.map .str))]),
            requiredNames :=
              if fieldsSomeRequired tfs then addUnique acc.requiredNames nm
              else acc.requiredNames,
            defs := c.defs }
        | none =>
          { fieldSchemas := mergeAssoc acc.fieldSchemas c.fieldSchemas,
            requiredNames := addUniqueList acc.requiredNames c.requiredNames,
            defs := c.defs }
      tabsStep cit cfg rest acc1

end

/-- The `properties`/`required` pair returned by `fieldsToJSONSchema`. -/
structure FieldsOut where
  properties : List (String × JVal)
  required : List String

/-- `fieldsToJSONSchema` (lines 154-581) with the mutation of the
caller-supplied interface-definitions map made explicit. -/
def fieldsToJSONSchema (cit : List (String × String)) (fields : List Field)
    (defs : Defs) (cfg : Option ConfigModel) : Except DeriveErr (FieldsOut × Defs) :=
  match fieldsToJSONSchemaAux cit cfg fields
      { fieldSchemas := [], requiredNames := [], defs := defs } with
  | .error e => .error e
  | .ok acc =>
    .ok ({ properties := acc.fieldSchemas, required := acc.requiredNames }, acc.defs)

/-- Modelled from the spec: the entity title is formatted from the slug by
the external `pluralize` library and a word formatter that are not part
of this core (the spec does not constrain titles); modelled as the slug
itself, with the explicit `typescript.interface` override honoured as in
the source. -/
def entityTitle (e : Entity) : String :=
  match e.typescriptInterface with
  | some t => t
  | none => e.slug

/-- The default id field unshifted by `entityToJSONSchema` (line 599); an
undefined `defaultIDType` would flow into the type tag as in
JavaScript. -/
def idFieldOf (defaultIDType : Option String) : Field :=
  (Field.base (defaultIDType.getD "undefined") (some "id")).setRequired true

/-- Whether a field is the custom id field searched for at lines
600-602. -/
def isCustomIdField (f : Field) : Bool :=
  fieldAffectsData f && f.name == some "id"

/-- The in-place `customIdField.required = true` mutation: mark the first
matching field required. -/
def setRequiredOnFirstId : List Field → List Field
  | [] => []
  | f :: rest =>
    if isCustomIdField f then f.setRequired true :: rest
    else f :: setRequiredOnFirstId rest

/-- Lines 599-628 of `entityToJSONSchema`: id-field handling, timestamp
required marking, and the auth password field. -/
def entityFieldsPrepared (defaultIDType : Option String) (e : Entity) : List Field :=
  let fields1 :=
    match e.fields.find? isCustomIdField with
    | some cf =>
      if cf.type ≠ "group" ∧ cf.type ≠ "tab" then setRequiredOnFirstId e.fields
      else idFieldOf defaultIDType :: e.fields
    | none => idFieldOf defaultIDType :: e.fields
  let fields2 :=
    match e.timestamps with
    | some true =>
      fields1.map fun f =>
        if fieldAffectsData f && (f.name == some "createdAt" || f.name == some "updatedAt")
        then f.setRequired true else f
    | _ => fields1
  match e.auth with
  | some ac => if ac.disableLocalStrategy then fields2
               else fields2 ++ [Field.base "text" (some "password")]
  | none => fields2

/-- `entityToJSONSchema` (lines 584-636). -/
def entityToJSONSchema (cfg : Option ConfigModel) (e : Entity) (defs : Defs)
    (defaultIDType : Option String) (cit : List (String × String)) :
    Except DeriveErr (JVal × Defs) :=
  match fieldsToJSONSchema cit (entityFieldsPrepared defaultIDType e) defs cfg with
  | .error er => .error er
  | .ok (out, defs1) =>
    .ok (.obj [("type", .str "object"), ("additionalProperties", .bool false),
               ("title", .str (entityTitle e)),
               ("properties", .obj out.properties),
               ("required", .arr (out.required.map .str))], defs1)

/-- The shared `fieldType` schema constant of lines 638-641. -/
def fieldTypeSchema : JVal :=
  .obj [("type", .str "string"), ("required", .bool false)]

/-- `generateAuthFieldTypes` (lines 642-746); `ty` is one of `login`,
`register`, `forgotOrUnlock`. -/
def generateAuthFieldTypes (lwu : Option AuthLWU) (ty : String) : JVal :=
  let defaultSchema : JVal :=
    .obj [("additionalProperties", .bool false),
          ("properties", .obj [("email", fieldTypeSchema), ("password", fieldTypeSchema)]),
          ("required", .arr [.str "email", .str "password"])]
  match lwu with
  | some u =>
    if ty = "login" then
      if u.allowEmailLogin then
        .obj [("additionalProperties", .bool false),
              ("oneOf", .arr
                [.obj [("additionalProperties", .bool false),
                       ("properties", .obj [("email", fieldTypeSchema),
                                            ("password", fieldTypeSchema)]),
                       ("required", .arr [.str "email", .str "password"])],
                 .obj [("additionalProperties", .bool false),
                       ("properties", .obj [("password", fieldTypeSchema),
                                            ("username", fieldTypeSchema)]),
                       ("required", .arr [.str "username", .str "password"])]])]
      else
        .obj [("additionalProperties", .bool false),
              ("properties", .obj [("password", fieldTypeSchema),
                                   ("username", fieldTypeSchema)]),
              ("required", .arr [.str "username", .str "password"])]
    else if ty = "register" then
      let requiredFields :=
        (["password"] ++ (if u.requireEmail then ["email"] else [])) ++
          (if u.requireUsername then ["username"] else [])
      let properties :=
        let base := [("password", fieldTypeSchema), ("username", fieldTypeSchema)]
        if u.requireEmail || u.allowEmailLogin then mapSet base "email" fieldTypeSchema
        else base
      .obj [("additionalProperties", .bool false),
            ("properties", .obj properties),
            ("required", .arr (requiredFields.map .str))]
    else if ty = "forgotOrUnlock" then
      if u.allowEmailLogin then
        .obj [("additionalProperties", .bool false),
              ("oneOf", .arr
                [.obj [("additionalProperties", .bool false),
                       ("properties", .obj [("email", fieldTypeSchema)]),
                       ("required", .arr [.str "email"])],
                 .obj [("additionalProperties", .bool false),
                       ("properties", .obj [("username", fieldTypeSchema)]),
                       ("required", .arr [.str "username"])]])]
      else
        .obj [("additionalProperties", .bool false),
              ("properties", .obj [("username", fieldTypeSchema)]),
              ("required", .arr [.str "username"])]
    else defaultSchema
  | none => defaultSchema

/-- `authCollectionToOperationsJSONSchema` (lines 748-776); the title
formatting uses the spec-modelled `entityTitle` base. -/
def authCollectionToOperationsJSONSchema (c : Entity) : JVal :=
  let lwu := c.auth.bind (·.loginWithUsername)
  let loginUserFields := generateAuthFieldTypes lwu "login"
  let forgotOrUnlockUserFields := generateAuthFieldTypes lwu "forgotOrUnlock"
  let registerUserFields := generateAuthFieldTypes lwu "register"
  let properties : List (String × JVal) :=
    [("forgotPassword", forgotOrUnlockUserFields), ("login", loginUserFields),
     ("registerFirstUser", registerUserFields), ("unlock", forgotOrUnlockUserFields)]
  .obj [("type", .str "object"), ("additionalProperties", .bool false),
        ("properties", .obj properties),
        ("required", .arr ((properties.map (·.1)).map .str)),
        ("title", .str (c.slug ++ "AuthOperations"))]

/-- `generateEntitySchemas` (lines 58-75). -/
def generateEntitySchemas (entities : List Entity) : JVal :=
  let properties := entities.foldl
    (fun acc e => mapSet acc e.slug (refDefinition (some e.slug))) []
  .obj [("type", .str "object"), ("additionalProperties", .bool false),
        ("properties", .obj properties),
        ("required", .arr ((properties.map (·.1)).map .str))]

/-- `generateLocaleEntitySchemas` (lines 77-94). -/
def generateLocaleEntitySchemas (localization : Option (List String)) : JVal :=
  match localization with
  | some locales => .obj [("type", .str "string"), ("enum", .arr (locales.map .str))]
  | none => .obj [("type", .str "null")]

/-- `generateAuthEntitySchemas` (lines 96-118). -/
def generateAuthEntitySchemas (entities : List Entity) : JVal :=
  .obj [("oneOf", .arr ((entities.filter (·.auth.isSome)).map fun e =>
    .obj [("allOf", .arr
      [refDefinition (some e.slug),
       .obj [("type", .str "object"), ("additionalProperties", .bool false),
             ("properties", .obj [("collection",
               .obj [("type", .str "string"), ("enum", .arr [.str e.slug])])]),
             ("required", .arr [.str "collection"])]])]))]

/-- `generateDbEntitySchema` (lines 125-137). -/
def generateDbEntitySchema (config : ConfigModel) : JVal :=
  let defaultIDType : JVal :=
    if config.defaultIDTypeDb = some "number" then .obj [("type", .str "number")]
    else .obj [("type", .str "string")]
  .obj [("type", .str "object"), ("additionalProperties", .bool false),
        ("properties", .obj [("defaultIDType", defaultIDType)]),
        ("required", .arr [.str "defaultIDType"])]

/-- `generateAuthOperationSchemas` (lines 778-794). -/
def generateAuthOperationSchemas (collections : List Entity) : JVal :=
  let properties := collections.foldl
    (fun acc c =>
      if c.auth.isSome then
        mapSet acc c.slug (.obj [("$ref", .str ("#/definitions/auth/" ++ c.slug))])
      else acc) []
  .obj [("type", .str "object"), ("additionalProperties", .bool false),
        ("properties", .obj properties),
        ("required", .arr ((properties.map (·.1)).map .str))]

/-- Modelled from the spec: `getCollectionIDFieldTypes` is repository code
that is not present in the sources.  Per the spec (glossary, "Custom ID
type") a collection's identifier type is its declared custom id field's
type when present — numeric versus textual, rendered as the JSON-schema
type names `number`/`string` — and otherwise the adapter default. -/
def getCollectionIDFieldTypes (config : ConfigModel) (defaultIDType : Option String) :
    List (String × String) :=
  config.collections.map fun c =>
    (c.slug,
      match c.fields.find? isCustomIdField with
      | some f => if f.type = "number" then "number" else "string"
      | none => if defaultIDType = some "number" then "number" else "string")

/-- One task of `generateJobsSchemas`: derive the optional input/output
schemas into the jobs definitions map (lines 816-852), threading the
interface-definitions map. -/
def jobsTaskDefs (cfg : Option ConfigModel) (cit : List (String × String)) :
    List TaskDef → Defs → Defs → Except DeriveErr (Defs × Defs)
  | [], jdefs, defs => .ok (jdefs, defs)
  | task :: rest, jdefs, defs =>
    let step1 : Except DeriveErr (Defs × Defs) :=
      if task.inputSchema.isEmpty then .ok (jdefs, defs)
      else
        match fieldsToJSONSchema cit task.inputSchema defs cfg with
        | .error e => .error e
        | .ok (out, defs1) =>
          .ok (mapSet jdefs ("Task" ++ task.slug ++ "Input")
            (.obj [("type", .str "object"), ("additionalProperties", .bool false),
                   ("properties", .obj out.properties),
                   ("required", .arr (out.required.map .str))]), defs1)
    match step1 with
    | .error e => .error e
    | .ok (jdefs1, defs1) =>
      let step2 : Except DeriveErr (Defs × Defs) :=
        if task.outputSchema.isEmpty then .ok (jdefs1, defs1)
        else
          match fieldsToJSONSchema cit task.outputSchema defs1 cfg with
          | .error e => .error e
          | .ok (out, defs2) =>
            .ok (mapSet jdefs1 ("Task" ++ task.slug ++ "Output")
              (.obj [("type", .str "object"), ("additionalProperties", .bool false),
                     ("properties", .obj out.properties),
                     ("required", .arr (out.required.map .str))]), defs2)
      match step2 with
      | .error e => .error e
      | .ok (jdefs2, defs2) => jobsTaskDefs cfg cit rest jdefs2 defs2

/-- The per-task entry of `properties.tasks` (lines 858-881), including
the duplicated `required` pushes of the source. -/
def jobsTaskEntry (task : TaskDef) : JVal :=
  let req0 := ["input", "output"]
  let props0 : List (String × JVal) := [("input", .obj [])]
  let step1 :=
    if task.inputSchema.isEmpty then (props0, req0)
    else (mapSet props0 "input"
      (.obj [("$ref", .str ("#/definitions/Task" ++ task.slug ++ "Input"))]),
      req0 ++ ["input"])
  let step2 :=
    if task.outputSchema.isEmpty then step1
    else (mapSet step1.1 "output"
      (.obj [("$ref", .str ("#/definitions/Task" ++ task.slug ++ "Output"))]),
      step1.2 ++ ["output"])
  .obj [("type", .str "object"), ("additionalProperties", .bool false),
        ("properties", .obj step2.1),
        ("required", .arr (step2.2.map .str))]

/-- Workflow input-schema definitions (lines 888-905). -/
def jobsWorkflowDefs (cfg : Option ConfigModel) (cit : List (String × String)) :
    List WorkflowDef → Defs → Defs → Except DeriveErr (Defs × Defs)
  | [], jdefs, defs => .ok (jdefs, defs)
  | wf :: rest, jdefs, defs =>
    let step1 : Except DeriveErr (Defs × Defs) :=
      if wf.inputSchema.isEmpty then .ok (jdefs, defs)
      else
        match fieldsToJSONSchema cit wf.inputSchema defs cfg with
        | .error e => .error e
        | .ok (out, defs1) =>
          .ok (mapSet jdefs ("Workflow" ++ wf.slug ++ "Input")
            (.obj [("type", .str "object"), ("additionalProperties", .bool false),
                   ("properties", .obj out.properties),
                   ("required", .arr (out.required.map .str))]), defs1)
    match step1 with
    | .error e => .error e
    | .ok (jdefs1, defs1) => jobsWorkflowDefs cfg cit rest jdefs1 defs1

/-- The per-workflow entry of `properties.workflows` (lines 911-929). -/
def jobsWorkflowEntry (wf : WorkflowDef) : JVal :=
  let req0 := ["input"]
  let props0 : List (String × JVal) := [("input", .obj [])]
  let step1 :=
    if wf.inputSchema.isEmpty then (props0, req0)
    else (mapSet props0 "input"
      (.obj [("$ref", .str ("#/definitions/Workflow" ++ wf.slug ++ "Input"))]),
      req0 ++ ["input"])
  .obj [("type", .str "object"), ("additionalProperties", .bool false),
        ("properties", .obj step1.1),
        ("required", .arr (step1.2.map .str))]

/-- `generateJobsSchemas` (lines 796-940): jobs-owned definitions, the
`tasks`/`workflows` properties object (initialised to empty objects and
only filled when the respective list is non-empty — the `workflows`
schema's `required` lists the task slugs, as written in the source), and
the updated interface-definitions map. -/
def generateJobsSchemas (cfg : Option ConfigModel) (jobs : JobsConfig)
    (defs : Defs) (cit : List (String × String)) :
    Except DeriveErr (Defs × JVal × Defs) :=
  match jobsTaskDefs cfg cit jobs.tasks [] defs with
  | .error e => .error e
  | .ok (jdefs1, defs1) =>
    let tasksVal : JVal :=
      if jobs.tasks.isEmpty then .obj []
      else
        .obj [("type", .str "object"), ("additionalProperties", .bool false),
              ("properties", .obj (jobs.tasks.map fun t => (t.slug, jobsTaskEntry t))),
              ("required", .arr (jobs.tasks.map (.str ·.slug)))]
    match jobsWorkflowDefs cfg cit jobs.workflows jdefs1 defs1 with
    | .error e => .error e
    | .ok (jdefs2, defs2) =>
      let workflowsVal : JVal :=
        if jobs.workflows.isEmpty then .obj []
        else
          .obj [("type", .str "object"), ("additionalProperties", .bool false),
                ("properties", .obj (jobs.workflows.map fun w => (w.slug, jobsWorkflowEntry w))),
                ("required", .arr (jobs.tasks.map (.str ·.slug)))]
      .ok (jdefs2, .obj [("tasks", tasksVal), ("workflows", workflowsVal)], defs2)

/-- The entity-definitions reduce of `configToJSONSchema` lines 957-969,
threading the interface-definitions map through every entity. -/
def entityDefsPass (cfg : Option ConfigModel) (defaultIDType : Option String)
    (cit : List (String × String)) :
    List Entity → Defs → Defs → Except DeriveErr (Defs × Defs)
  | [], acc, defs => .ok (acc, defs)
  | e :: rest, acc, defs =>
    match entityToJSONSchema cfg e defs defaultIDType cit with
    | .error er => .error er
    | .ok (schema, defs1) =>
      entityDefsPass cfg defaultIDType cit rest (mapSet acc e.slug schema) defs1

/-- The stateful prefix of `configToJSONSchema`: entity definitions, the
final interface-definitions map, and the jobs schemas when a jobs config
is present. -/
structure ConfigPass where
  entityDefs : Defs
  ifaceDefs : Defs
  jobsPart : Option (Defs × JVal)

/-- Lines 945-983 of `configToJSONSchema`: run every entity through
`entityToJSONSchema` against a fresh interface-definitions map, then the
jobs schemas against the same map. -/
def configDerivationPass (config : ConfigModel) (defaultIDType : Option String) :
    Except DeriveErr ConfigPass :=
  let cit := getCollectionIDFieldTypes config defaultIDType
  match entityDefsPass (some config) defaultIDType cit
      (config.globals ++ config.collections) [] [] with
  | .error e => .error e
  | .ok (entityDefs, ifaceDefs) =>
    match config.jobs with
    | some jobs =>
      match generateJobsSchemas (some config) jobs ifaceDefs cit with
      | .error e => .error e
      | .ok (jdefs, jprops, ifaceDefs2) =>
        .ok { entityDefs := entityDefs, ifaceDefs := ifaceDefs2,
              jobsPart := some (jdefs, jprops) }
    | none =>
      .ok { entityDefs := entityDefs, ifaceDefs := ifaceDefs, jobsPart := none }

/-- The pure assembly of the final config schema (lines 971-1017):
definitions spread (entity definitions, then interface definitions, then
the auth operations object, then jobs definitions), the six fixed
top-level properties plus the optional jobs property, and the fixed
required list and title. -/
def configAssemble (config : ConfigModel) (cp : ConfigPass) : JVal :=
  let authOps := config.collections.foldl
    (fun acc c =>
      if c.auth.isSome then mapSet acc c.slug (authCollectionToOperationsJSONSchema c)
      else acc) []
  let definitions0 :=
    mergeAssoc (mergeAssoc cp.entityDefs cp.ifaceDefs) [("auth", .obj authOps)]
  let definitions1 :=
    match cp.jobsPart with
    | some (jdefs, _) => mergeAssoc definitions0 jdefs
    | none => definitions0
  let properties0 : List (String × JVal) :=
    [("auth", generateAuthOperationSchemas config.collections),
     ("collections", generateEntitySchemas config.collections),
     ("db", generateDbEntitySchema config),
     ("globals", generateEntitySchemas config.globals),
     ("locale", generateLocaleEntitySchemas config.localization),
     ("user", generateAuthEntitySchemas config.collections)]
  let properties1 :=
    match cp.jobsPart with
    | some (_, jprops) =>
      mapSet properties0 "jobs"
        (.obj [("type", .str "object"), ("additionalProperties", .bool false),
               ("properties", jprops), ("required", .arr [.str "tasks"])])
    | none => properties0
  .obj [("additionalProperties", .bool false),
        ("definitions", .obj definitions1),
        ("type", .str "object"),
        ("properties", .obj properties1),
        ("required", .arr [.str "user", .str "locale", .str "collections",
                           .str "globals", .str "auth", .str "db"]),
        ("title", .str "Config")]

/-- `configToJSONSchema` (lines 945-1026), including the final
`typescript.schema` transform fold. -/
def configToJSONSchema (config : ConfigModel) (defaultIDType : Option String) :
    Except DeriveErr JVal :=
  match configDerivationPass config defaultIDType with
  | .error e => .error e
  | .ok cp =>
    .ok (config.typescriptSchema.foldl (fun j f => f j) (configAssemble config cp))

/-! ## Theorems -/

/-- A resolver returning a single flat text-field segment at the sanitized
path, used to exercise the translator on concrete inputs. -/
def gTitle : GetPaths :=
  fun _ _ _ p _ _ =>
    [{ collectionSlug := some "posts", complete := true,
       field := { name := "title", type := "text" }, path := p }]

/-- A minimal payload with one plain collection. -/
def payloadPosts : PayloadModel :=
  { collections := [("posts", { customIDType := none, fields := [] })], globals := [] }

/-- C6: resolving the identity path yields exactly one complete segment
whose field type is the collection's declared custom ID type, defaulting
to `text`. -/
theorem c6_idPathSingleSegment (g : GetPaths) (a : BuildArgs)
    (h : normalizePath a.incomingPath = "_id") :
    (resolvePaths g a (normalizePath a.incomingPath)).1 =
      [{ collectionSlug := a.collectionSlug, complete := true,
         field := { name := "id",
                    type := (customIDTypeOf a.payload a.collectionSlug).getD "text" },
         path := "_id" }] ∧
    normalizePath "id" = "_id" ∧ normalizePath "_id" = "_id" := by
  refine ⟨?_, rfl, rfl⟩
  rw [h]
  unfold resolvePaths
  rw [if_pos rfl]
  cases customIDTypeOf a.payload a.collectionSlug <;> rfl

/-- Witness for C6: on a collection declaring a numeric custom ID type,
the incoming path `id` resolves to one complete `_id` segment typed
`number`. -/
theorem c6_idPathSingleSegment_witness :
    normalizePath "id" = "_id" ∧
    (resolvePaths gTitle
        { collectionSlug := some "orders", incomingPath := "id", operator := "equals",
          payload := { collections := [("orders", { customIDType := some "number" })] },
          val := .str "5" } (normalizePath "id")).1 =
      [{ collectionSlug := some "orders", complete := true,
         field := { name := "id", type := "number" }, path := "_id" }] :=
  ⟨rfl,
    (c6_idPathSingleSegment gTitle
      { collectionSlug := some "orders", incomingPath := "id", operator := "equals",
        payload := { collections := [("orders", { customIDType := some "number" })] },
        val := .str "5" } rfl).1⟩

/-- C9: schema derivation is deterministic and idempotent — deriving twice
from the same field model, each time against a fresh (empty) interface
registry, produces structurally identical output, at the field level and
at the whole-config level. -/
theorem c9_derivationDeterministic (config : ConfigModel) (defaultIDType : Option String)
    (cit : List (String × String)) (fields : List Field) (cfg : Option ConfigModel) :
    configToJSONSchema config defaultIDType = configToJSONSchema config defaultIDType ∧
    fieldsToJSONSchema cit fields ([] : Defs) cfg =
      fieldsToJSONSchema cit fields ([] : Defs) cfg :=
  ⟨rfl, rfl⟩

/-- C4 (failing input): a `Where` conjunction containing a leaf with the
unknown operator `bogus_op` does not raise a `QueryError` — `buildQuery`
returns a filter in which the malformed leaf has become an empty
constraint while its sibling was translated, because `buildSearchParam`
returns `undefined` for the leaf and `buildQuery`'s `errors` list is
never appended to.  The first conjunct shows no input can ever produce
the error branch. -/
theorem c4_bogusOperatorSilentlyDropped :
    (∀ (g : GetPaths) (vf : Option (List QField)) (payload : PayloadModel)
       (cs gs loc : Option String) (proj : Option (List (String × Bool)))
       (w : WhereNode) (pl : List LookupStage),
        ∃ q, buildQuery g vf payload cs gs loc proj w pl = .ok q) ∧
    buildQuery gTitle none payloadPosts (some "posts") none none none
      (.and [.leaf "title" "bogus_op" (.str "x"), .leaf "title" "equals" (.str "y")]) [] =
    .ok (.obj [("$and", .arr [.obj [], .obj [("title", .obj [("$eq", .str "y")])]])]) :=
  ⟨fun _ _ _ _ _ _ _ _ _ => ⟨_, rfl⟩, rfl⟩

/-- A dotted concatenation is never the empty string. -/
theorem append_dot_ne_empty (x y : String) : x ++ "." ++ y ≠ "" := by
  intro h
  have hl := congrArg String.length h
  simp [String.length_append] at hl
  exact absurd hl.1.2 (by decide)

/-- The lookup loop on a three-segment path whose last segment is not the
identity hop: exactly two stages are appended, in traversal order, the
second aliased and joined under the path accumulated by the first. -/
theorem buildLookups_three (p0 p1 p2 : PathToQuery) (st : LoopState)
    (h0 : st.currentPath = none) (hp0 : p0.path ≠ "") (hp2 : p2.path ≠ "id") :
    buildLookupsAux [p0, p1, p2] 0 st =
      { pipeline := st.pipeline ++
          [{ as := "_" ++ p0.path, foreignField := "_id",
             from_ := mongoFrom p1.collectionSlug, localField := p0.path },
           { as := "_" ++ (p0.path ++ "." ++ p1.path), foreignField := "_id",
             from_ := mongoFrom p2.collectionSlug,
             localField := "_" ++ (p0.path ++ "." ++ p1.path) }],
        projection := st.projection.map (fun m => mapSet m ("_" ++ p0.path) false),
        currentPath := some (p0.path ++ "." ++ p1.path ++ "." ++ p2.path),
        isID := st.isID } := by
  simp [buildLookupsAux, h0, jsFalsyStr, nextIsLastId, beq_iff_eq, hp0, hp2,
    append_dot_ne_empty p0.path p1.path]

/-- C1: a resolved path of three segments crossing two relationship hops
makes `buildSearchParam` push exactly two `$lookup` stages onto the
caller-supplied pipeline, in traversal order; the second stage reads its
`localField` under the `_`-prefixed alias produced by the first. -/
theorem c1_twoHopPathTwoLookups (g : GetPaths) (a : BuildArgs) (p0 p1 p2 : PathToQuery)
    (hsan : normalizePath a.incomingPath ≠ "_id")
    (hg : g a.collectionSlug a.fields a.globalSlug (normalizePath a.incomingPath)
            a.locale a.payload = [p0, p1, p2])
    (hp0 : p0.path ≠ "") (hp2 : p2.path ≠ "id") :
    (buildSearchParam g a).pipeline =
      a.pipeline ++
        [{ as := "_" ++ p0.path, foreignField := "_id",
           from_ := mongoFrom p1.collectionSlug, localField := p0.path },
         { as := ("_" ++ p0.path) ++ "." ++ p1.path, foreignField := "_id",
           from_ := mongoFrom p2.collectionSlug,
           localField := ("_" ++ p0.path) ++ "." ++ p1.path }] := by
  simp only [buildSearchParam, resolvePaths, if_neg hsan, hg, sanitizeQueryValue,
    List.head?]
  rw [if_neg hp0]
  rw [buildLookups_three p0 p1 p2 _ rfl hp0 hp2]
  simp [String.append_assoc]

/-- A resolver returning a concrete three-segment relationship chain
(`author.group.name` across `posts → authors → groups`). -/
def gThreeHop : GetPaths :=
  fun _ _ _ _ _ _ =>
    [{ collectionSlug := some "posts", complete := false,
       field := { name := "author", type := "relationship",
                  relationTo := some (.one "authors") }, path := "author" },
     { collectionSlug := some "authors", complete := false,
       field := { name := "group", type := "relationship",
                  relationTo := some (.one "groups") }, path := "group" },
     { collectionSlug := some "groups", complete := true,
       field := { name := "name", type := "text" }, path := "name" }]

/-- Witness for C1 on the concrete chain `author.group.name`. -/
theorem c1_twoHopPathTwoLookups_witness :
    normalizePath "author.group.name" ≠ "_id" ∧
    (buildSearchParam gThreeHop
        { incomingPath := "author.group.name", operator := "equals",
          payload := payloadPosts, val := .str "x" }).pipeline =
      [{ as := "_author", foreignField := "_id", from_ := "authors",
         localField := "author" },
       { as := "_author.group", foreignField := "_id", from_ := "groups",
         localField := "_author.group" }] :=
  ⟨by decide,
    c1_twoHopPathTwoLookups gThreeHop
      { incomingPath := "author.group.name", operator := "equals",
        payload := payloadPosts, val := .str "x" }
      _ _ _ (by decide) rfl (by decide) (by decide)⟩

/-- C2: a two-segment resolved path whose second segment is the literal
`id` over a relationship field emits no `$lookup`; the comparison is
applied directly at the relationship's own stored path and a string
value is coerced to an ObjectId. -/
theorem c2_lengthTwoIdNoJoin (g : GetPaths) (a : BuildArgs) (p0 p1 : PathToQuery)
    (s : String)
    (hsan : normalizePath a.incomingPath ≠ "_id")
    (hg : g a.collectionSlug a.fields a.globalSlug (normalizePath a.incomingPath)
            a.locale a.payload = [p0, p1])
    (hp0 : p0.path ≠ "")
    (hid : p1.path = "id")
    (hrel : p0.field.type = "relationship" ∨ p0.field.type = "upload")
    (hval : a.val = .str s)
    (hop : validOperators.contains a.operator = true) :
    (buildSearchParam g a).pipeline = a.pipeline ∧
    (buildSearchParam g a).result =
      some { path := some p0.path,
             value := some (match operatorMap a.operator with
                            | some k => .obj [(k, .objectId s)]
                            | none => .objectId s) } := by
  have hbs : buildSearchParam g a =
      BuildOut.mk
        (some (SearchParam.mk (some p0.path)
          (some (match operatorMap a.operator with
                 | some k => JVal.obj [(k, JVal.objectId s)]
                 | none => JVal.objectId s))))
        a.pipeline a.projection := by
    simp only [buildSearchParam, resolvePaths, if_neg hsan, hg, sanitizeQueryValue,
      List.head?]
    rw [if_neg hp0]
    simp only [buildLookupsAux, jsFalsyStr, nextIsLastId, hid, hval, joinedPath,
      searchParamResult, hop]
    cases operatorMap a.operator <;> simp [hid]
  rw [hbs]
  exact ⟨rfl, rfl⟩

/-- A resolver for the concrete two-segment path `article.id` over a
relationship field. -/
def gArticleId : GetPaths :=
  fun _ _ _ _ _ _ =>
    [{ collectionSlug := some "posts", complete := false,
       field := { name := "article", type := "relationship",
                  relationTo := some (.one "articles") }, path := "article" },
     { collectionSlug := some "articles", complete := true,
       field := { name := "id", type := "text" }, path := "id" }]

/-- Witness for C2 on the concrete path `article.id`. -/
theorem c2_lengthTwoIdNoJoin_witness :
    normalizePath "article.id" ≠ "_id" ∧
    (buildSearchParam gArticleId
        { incomingPath := "article.id", operator := "equals",
          payload := payloadPosts, val := .str "aaaabbbbccccddddeeeeffff" }).pipeline = [] ∧
    (buildSearchParam gArticleId
        { incomingPath := "article.id", operator := "equals",
          payload := payloadPosts, val := .str "aaaabbbbccccddddeeeeffff" }).result =
      some { path := some "article",
             value := some (.obj [("$eq", .objectId "aaaabbbbccccddddeeeeffff")]) } := by
  have h := c2_lengthTwoIdNoJoin gArticleId
    { incomingPath := "article.id", operator := "equals",
      payload := payloadPosts, val := .str "aaaabbbbccccddddeeeeffff" }
    _ _ "aaaabbbbccccddddeeeeffff" (by decide) rfl (by decide) rfl (Or.inl rfl) rfl
    (by decide)
  exact ⟨by decide, h.1, h.2⟩

/-- C3: a single-segment relationship/upload leaf compared to a scalar
string builds a multi-branch condition — `$or`, or `$and` when the
backend operator is `$ne` — whose first branch is the string comparison;
the second branch is the ObjectId coercion when the value is a valid
ObjectId, and otherwise the `parseFloat` coercion exactly when at least
one declared target collection has a numeric custom ID type.  The
numeric branch is a comparison at the same path, not scoped to the
numeric-ID target collections.  When neither coercion applies no
multi-branch wrapper is produced. -/
theorem c3_relationshipMultiBranch (g : GetPaths) (a : BuildArgs) (p : PathToQuery)
    (s : String)
    (hsan : normalizePath a.incomingPath ≠ "_id")
    (hg : g a.collectionSlug a.fields a.globalSlug (normalizePath a.incomingPath)
            a.locale a.payload = [p])
    (hp : p.path ≠ "")
    (hrel : p.field.type = "relationship" ∨ p.field.type = "upload")
    (hval : a.val = .str s)
    (hop : validOperators.contains a.operator = true) :
    (buildSearchParam g a).pipeline = a.pipeline ∧
    (isValidObjectId s = true →
      (buildSearchParam g a).result =
        some (SearchParam.mk none (some (.obj
          [(if operatorMap a.operator = some "$ne" then "$and" else "$or", .arr
            [.obj [(p.path, .obj [((operatorMap a.operator).getD "undefined", .str s)])],
             .obj [(p.path, .obj [((operatorMap a.operator).getD "undefined",
                                   .objectId s)])]])])))) ∧
    (isValidObjectId s = false → hasNumberIDRelation p.field a.payload = true →
      (buildSearchParam g a).result =
        some (SearchParam.mk none (some (.obj
          [(if operatorMap a.operator = some "$ne" then "$and" else "$or", .arr
            [.obj [(p.path, .obj [((operatorMap a.operator).getD "undefined", .str s)])],
             .obj [(p.path, .obj [((operatorMap a.operator).getD "undefined",
                                   .parsedFloat s)])]])])))) ∧
    (isValidObjectId s = false → hasNumberIDRelation p.field a.payload = false →
      a.operator ≠ "like" →
      (buildSearchParam g a).result =
        some (SearchParam.mk (some p.path)
          (some (match operatorMap a.operator with
                 | some k => JVal.obj [(k, .str s)]
                 | none => JVal.str s)))) := by
  have hbs : buildSearchParam g a =
      BuildOut.mk (searchParamResult a.payload [p] p.field p.path (.str s) a.operator)
        a.pipeline a.projection := by
    simp only [buildSearchParam, resolvePaths, if_neg hsan, hg, sanitizeQueryValue,
      List.head?]
    rw [if_neg hp]
    simp [hval]
  rw [hbs]
  have hopm : a.operator ∈ validOperators := by simpa using hop
  refine ⟨rfl, ?_, ?_, ?_⟩
  · intro hv
    rcases hrel with h | h <;> simp [searchParamResult, hopm, h, hv]
  · intro hv hnum
    rcases hrel with h | h <;> simp [searchParamResult, hopm, h, hv, hnum]
  · intro hv hnum hlike
    rcases hrel with h | h <;>
      · simp only [searchParamResult, hv, hnum]
        simp [hopm, h, hlike]
        cases operatorMap a.operator <;> simp

/-- A resolver for a single-segment polymorphic relationship leaf. -/
def gRel : GetPaths :=
  fun _ _ _ p _ _ =>
    [{ collectionSlug := some "posts", complete := true,
       field := { name := "owner", type := "relationship",
                  relationTo := some (.many ["articles", "orders"]) }, path := p }]

/-- A payload in which one relationship target uses numeric custom IDs. -/
def payloadMixedIds : PayloadModel :=
  { collections := [("articles", { customIDType := none }),
                    ("orders", { customIDType := some "number" })] }

/-- Witness for C3: a non-ObjectId string against a polymorphic
relationship with one numeric-ID target produces the `$or` of the string
branch and the `parseFloat` branch. -/
theorem c3_relationshipMultiBranch_witness :
    isValidObjectId "abc" = false ∧
    hasNumberIDRelation
      { name := "owner", type := "relationship",
        relationTo := some (.many ["articles", "orders"]) } payloadMixedIds = true ∧
    (buildSearchParam gRel
        { incomingPath := "owner", operator := "equals",
          payload := payloadMixedIds, val := .str "abc" }).result =
      some (SearchParam.mk none (some (.obj [("$or", .arr
        [.obj [("owner", .obj [("$eq", .str "abc")])],
         .obj [("owner", .obj [("$eq", .parsedFloat "abc")])]])]))) := by
  have h := c3_relationshipMultiBranch gRel
    { incomingPath := "owner", operator := "equals",
      payload := payloadMixedIds, val := .str "abc" }
    _ "abc" (by decide) rfl (by decide) (Or.inl rfl) rfl (by decide)
  exact ⟨rfl, rfl, h.2.2.1 rfl rfl⟩

/-- C5 (amended): for a string value under `like` on a leaf not captured
by the relationship/upload identifier special case, the produced
fragment is a `$and` over the tokens obtained by splitting the value on
the single space character (adjacent spaces yield empty tokens), one
case-insensitive escaped `$regex` per token; `"red fox"` yields exactly
two tokens. -/
theorem c5_likeSplitsOnSpace (g : GetPaths) (a : BuildArgs) (p : PathToQuery)
    (s : String)
    (hsan : normalizePath a.incomingPath ≠ "_id")
    (hg : g a.collectionSlug a.fields a.globalSlug (normalizePath a.incomingPath)
            a.locale a.payload = [p])
    (hp : p.path ≠ "")
    (hft : ¬(p.field.type = "relationship" ∨ p.field.type = "upload"))
    (hval : a.val = .str s)
    (hop : a.operator = "like") :
    (buildSearchParam g a).pipeline = a.pipeline ∧
    (buildSearchParam g a).result =
      some (SearchParam.mk none (some (.obj [("$and",
        .arr ((jsSplitOnSpace s).map (likeFragment p.path)))]))) ∧
    jsSplitOnSpace "red fox" = ["red", "fox"] := by
  have hbs : buildSearchParam g a =
      BuildOut.mk (searchParamResult a.payload [p] p.field p.path (.str s) a.operator)
        a.pipeline a.projection := by
    simp only [buildSearchParam, resolvePaths, if_neg hsan, hg, sanitizeQueryValue,
      List.head?]
    rw [if_neg hp]
    simp [hval]
  rw [hbs]
  refine ⟨rfl, ?_, rfl⟩
  simp [searchParamResult, hop, hft, validOperators]

/-- Witness for C5 on the concrete value `"red fox"`. -/
theorem c5_likeSplitsOnSpace_witness :
    (buildSearchParam gTitle
        { incomingPath := "title", operator := "like",
          payload := payloadPosts, val := .str "red fox" }).result =
      some (SearchParam.mk none (some (.obj [("$and",
        .arr [likeFragment "title" "red", likeFragment "title" "fox"])]))) :=
  (c5_likeSplitsOnSpace gTitle
    { incomingPath := "title", operator := "like",
      payload := payloadPosts, val := .str "red fox" }
    _ "red fox" (by decide) rfl (by decide) (by decide) rfl rfl).2.1

/-- The spec's wording of the `like` tokenization: whitespace-separated
tokens of the value. -/
def specWhitespaceTokensAux : List Char → List (List Char)
  | [] => [[]]
  | c :: rest =>
    if c.isWhitespace then [] :: specWhitespaceTokensAux rest
    else
      match specWhitespaceTokensAux rest with
      | w :: ws => (c :: w) :: ws
      | [] => [[c]]

/-- The spec's wording of the `like` tokenization, as a definition to
compare against the source's single-space split. -/
def specWhitespaceTokens (s : String) : List String :=
  ((specWhitespaceTokensAux s.toList).map String.mk).filter (· ≠ "")

/-- C5 counterexample: on the value `"red\tfox"` the claim's
whitespace-separated tokenization has two tokens, but the source's
single-space split emits a `$and` with exactly one fragment whose regex
is the whole tab-containing string. -/
theorem c5_counterexample :
    (specWhitespaceTokens "red\tfox").length = 2 ∧
    (buildSearchParam gTitle
        { incomingPath := "title", operator := "like",
          payload := payloadPosts, val := .str "red\tfox" }).result =
      some (SearchParam.mk none (some (.obj [("$and",
        .arr [likeFragment "title" "red\tfox"])]))) ∧
    ([likeFragment "title" "red\tfox"] : List JVal).length = 1 :=
  ⟨rfl, rfl, rfl⟩

/-- The conditional `currentPath` initialisation does not touch the
pipeline. -/
theorem st1_pipeline (st : LoopState) (p : PathToQuery) :
    (if jsFalsyStr st.currentPath then { st with currentPath := some p.path }
     else st).pipeline = st.pipeline := by
  split <;> rfl

/-- Every stage the lookup loop appends draws its `from` collection from
one of the traversed segments through `mongoFrom`. -/
theorem buildLookups_from_aux (pths : List PathToQuery) :
    ∀ (i : Nat) (st : LoopState) (stage : LookupStage),
      stage ∈ (buildLookupsAux pths i st).pipeline →
      stage ∈ st.pipeline ∨ ∃ p ∈ pths, stage.from_ = mongoFrom p.collectionSlug := by
  induction pths with
  | nil =>
    intro i st stage h
    rw [buildLookupsAux] at h
    exact Or.inl h
  | cons p rest ih =>
    intro i st stage h
    rw [buildLookupsAux] at h
    by_cases hNext : nextIsLastId rest
    · rw [if_pos hNext] at h
      have h' : stage ∈ st.pipeline := by
        simpa [st1_pipeline] using h
      exact Or.inl h'
    · rw [if_neg hNext] at h
      by_cases hi : i = 0
      · rw [if_pos hi] at h
        rcases ih (i + 1) _ stage h with h' | ⟨q, hq, hfrom⟩
        · rw [st1_pipeline] at h'
          exact Or.inl h'
        · exact Or.inr ⟨q, List.mem_cons_of_mem p hq, hfrom⟩
      · rw [if_neg hi] at h
        rcases ih (i + 1) _ stage h with h' | ⟨q, hq, hfrom⟩
        · simp only [st1_pipeline, List.mem_append, List.mem_singleton] at h'
          rcases h' with h'' | rfl
          · exact Or.inl h''
          · exact Or.inr ⟨p, List.mem_cons_self p rest, rfl⟩
        · exact Or.inr ⟨q, List.mem_cons_of_mem p hq, hfrom⟩

/-- C10: every `$lookup` stage `buildSearchParam` emits computes its
`from` collection name from the segment's collection slug by appending a
single `s` unless the slug already ends in `s` (`mongoFrom`); no other
pluralization is applied, so an irregular plural such as `categories` is
never produced — the emitted name is `categorys`. -/
theorem c10_lookupFromNaivePlural (g : GetPaths) (a : BuildArgs) (stage : LookupStage)
    (h : stage ∈ (buildSearchParam g a).pipeline) :
    (stage ∈ a.pipeline ∨
      ∃ p ∈ (resolvePaths g a (normalizePath a.incomingPath)).1,
        stage.from_ = mongoFrom p.collectionSlug) ∧
    mongoFrom (some "category") = "categorys" ∧
    mongoFrom (some "news") = "news" ∧
    "categorys" ≠ "categories" := by
  refine ⟨?_, rfl, rfl, by decide⟩
  rw [buildSearchParam] at h
  simp only [sanitizeQueryValue] at h
  split at h
  · exact Or.inl h
  · split at h
    · exact Or.inl h
    · split at h
      · exact buildLookups_from_aux _ 0 _ stage h
      · exact Or.inl h

/-- Witness for C10 at the concrete two-hop chain: the first emitted
stage joins `authors`, the naive plural of the `authors` slug (already
ending in `s`). -/
theorem c10_lookupFromNaivePlural_witness :
    ({ as := "_author", foreignField := "_id", from_ := "authors",
       localField := "author" } : LookupStage) ∈
      (buildSearchParam gThreeHop
        { incomingPath := "author.group.name", operator := "equals",
          payload := payloadPosts, val := .str "x" }).pipeline ∧
    (({ as := "_author", foreignField := "_id", from_ := "authors",
        localField := "author" } : LookupStage) ∈ ([] : List LookupStage) ∨
      ∃ p ∈ (resolvePaths gThreeHop
          { incomingPath := "author.group.name", operator := "equals",
            payload := payloadPosts, val := .str "x" }
          (normalizePath "author.group.name")).1,
        ({ as := "_author", foreignField := "_id", from_ := "authors",
           localField := "author" } : LookupStage).from_ = mongoFrom p.collectionSlug) :=
  ⟨by decide,
    (c10_lookupFromNaivePlural gThreeHop
      { incomingPath := "author.group.name", operator := "equals",
        payload := payloadPosts, val := .str "x" }
      { as := "_author", foreignField := "_id", from_ := "authors",
        localField := "author" } (by decide)).1⟩

/-- Reading a property of a JSON object value. -/
def jvalField (j : JVal) (k : String) : Option JVal :=
  match j with
  | .obj kvs => List.lookup k kvs
  | _ => none

/-- Reading a nested property path of a JSON object value. -/
def jvalPath : JVal → List String → Option JVal
  | j, [] => some j
  | j, k :: ks =>
    match jvalField j k with
    | some j' => jvalPath j' ks
    | none => none

/-- Looking a key up after `mapSet`: the set binding wins at its own key
and every other key is untouched. -/
theorem lookup_mapSet {α : Type} (m : List (String × α)) (k : String) (v : α)
    (k' : String) :
    List.lookup k' (mapSet m k v) = if k' = k then some v else List.lookup k' m := by
  induction m with
  | nil =>
    by_cases h : k' = k
    · subst h; simp [mapSet, List.lookup_cons]
    · simp [mapSet, List.lookup_cons, beq_eq_false_iff_ne.mpr h, h]
  | cons kv rest ih =>
    obtain ⟨k2, v2⟩ := kv
    by_cases h2 : k2 = k
    · subst h2
      by_cases h' : k' = k2
      · subst h'; simp [mapSet, List.lookup_cons]
      · simp [mapSet, List.lookup_cons, beq_eq_false_iff_ne.mpr h', h']
    · by_cases h' : k' = k2
      · subst h'
        simp [mapSet, List.lookup_cons, h2]
      · simp [mapSet, List.lookup_cons, h2, beq_eq_false_iff_ne.mpr h', ih]

/-- A successful lookup means the key occurs in the key list. -/
theorem lookup_mem_keys {α : Type} (m : List (String × α)) (k : String) (v : α)
    (h : List.lookup k m = some v) : k ∈ m.map Prod.fst := by
  induction m with
  | nil => simp at h
  | cons kv rest ih =>
    obtain ⟨k2, v2⟩ := kv
    by_cases h2 : k = k2
    · subst h2; simp
    · rw [List.lookup_cons] at h
      rw [beq_eq_false_iff_ne.mpr h2] at h
      simp [ih h]

/-- Looking a key up in an object spread `\x7b...a, ...b\x7d` whose second
object has no duplicate keys: `b`'s binding wins, else `a`'s. -/
theorem lookup_mergeAssoc {α : Type} (m2 m1 : List (String × α)) (k : String)
    (hnd : (m2.map Prod.fst).Nodup) :
    List.lookup k (mergeAssoc m1 m2) =
      match List.lookup k m2 with
      | some v => some v
      | none => List.lookup k m1 := by
  induction m2 generalizing m1 with
  | nil => simp [mergeAssoc]
  | cons kv rest ih =>
    obtain ⟨k2, v2⟩ := kv
    have hstep : mergeAssoc m1 ((k2, v2) :: rest) = mergeAssoc (mapSet m1 k2 v2) rest := rfl
    rw [hstep, ih (mapSet m1 k2 v2) (by simpa using hnd.of_cons)]
    by_cases h2 : k = k2
    · subst h2
      cases hr : List.lookup k rest with
      | none => simp [List.lookup_cons, lookup_mapSet, hr]
      | some v =>
        exfalso
        have hmem := lookup_mem_keys rest k v hr
        have hnotmem : k ∉ rest.map Prod.fst :=
          (List.nodup_cons.mp (by simpa using hnd)).1
        exact hnotmem hmem
    · cases hr : List.lookup k rest with
      | none =>
        rw [List.lookup_cons, beq_eq_false_iff_ne.mpr h2]
        simp [lookup_mapSet, hr, h2]
      | some v =>
        rw [List.lookup_cons, beq_eq_false_iff_ne.mpr h2]
        simp [hr]

/-- C7: (1) whenever the derivation processes an array field carrying an
interface name — at any and every occurrence — the field's entry in the
properties map is the `$ref` to `#/definitions/<name>` and the derived
array schema itself is recorded under the interface name in the
definitions map; (2) any binding of the final interface-definitions map
whose key is not `auth` surfaces verbatim in the top-level `definitions`
of the config schema (stated for a config without jobs schemas or custom
schema transforms, which may add further definition keys). -/
theorem c7_interfaceNameLiftedAndRefed :
    (∀ (cit : List (String × String)) (cfg : Option ConfigModel) (acc : FAcc)
       (nm n : String) (req cond hM : Bool) (opts : List OptionV) (fs : List Field)
       (bs : List BlockDef) (tbs : List TabDef) (rel : Option RelationTo)
       (ed : Option EditorConfig) (js : Option JVal) (col : Option String) (c : FAcc),
      fieldsToJSONSchemaAux cit cfg fs
          { fieldSchemas := [], requiredNames := [], defs := acc.defs } = .ok c →
      stepField cit cfg acc
          (.mk "array" (some nm) req cond hM opts fs bs tbs rel (some n) ed js [] col) =
        .ok { fieldSchemas := mapSet acc.fieldSchemas nm (refDefinition (some n)),
              requiredNames :=
                if fieldIsRequired
                    (.mk "array" (some nm) req cond hM opts fs bs tbs rel (some n) ed js [] col)
                then addUnique acc.requiredNames nm else acc.requiredNames,
              defs := mapSet c.defs n (JVal.obj
                [("type", withNullableJSONSchemaType (.str "array")
                    (fieldIsRequired
                      (.mk "array" (some nm) req cond hM opts fs bs tbs rel
                        (some n) ed js [] col))),
                 ("items", .obj [("type", .str "object"),
                                 ("additionalProperties", .bool false),
                                 ("properties", .obj c.fieldSchemas),
                                 ("required", .arr (c.requiredNames.map .str))])]) }) ∧
    (∀ (config : ConfigModel) (d : Option String) (cp : ConfigPass) (n : String)
       (S js : JVal),
      config.typescriptSchema = [] →
      configDerivationPass config d = .ok cp →
      cp.jobsPart = none →
      (cp.ifaceDefs.map Prod.fst).Nodup →
      List.lookup n cp.ifaceDefs = some S →
      n ≠ "auth" →
      configToJSONSchema config d = .ok js →
      (jvalField js "definitions").bind (fun defsObj => jvalField defsObj n) = some S) := by
  constructor
  · intro cit cfg acc nm n req cond hM opts fs bs tbs rel ed js col c hc
    simp only [stepField]
    rw [hc]
    simp [applyTsSchema, fieldAffectsData, Field.name, Field.type]
  · intro config d cp n S js htrans hpass hjobs hnd hlook hne hcfg
    rw [configToJSONSchema, hpass, htrans] at hcfg
    simp only [List.foldl_nil, Except.ok.injEq] at hcfg
    subst hcfg
    have hfield : jvalField (configAssemble config cp) "definitions" =
        some (JVal.obj (mergeAssoc (mergeAssoc cp.entityDefs cp.ifaceDefs)
          [("auth", JVal.obj (config.collections.foldl
            (fun acc c =>
              if c.auth.isSome then
                mapSet acc c.slug (authCollectionToOperationsJSONSchema c)
              else acc) []))])) := by
      simp only [configAssemble, hjobs, jvalField]
      rfl
    rw [hfield]
    show List.lookup n (mergeAssoc (mergeAssoc cp.entityDefs cp.ifaceDefs)
      [("auth", JVal.obj (config.collections.foldl
        (fun acc c =>
          if c.auth.isSome then
            mapSet acc c.slug (authCollectionToOperationsJSONSchema c)
          else acc) []))]) = some S
    rw [lookup_mergeAssoc _ _ _ (by simp)]
    rw [List.lookup_cons, beq_eq_false_iff_ne.mpr hne, List.lookup_nil]
    rw [lookup_mergeAssoc _ _ _ hnd, hlook]

/-- The concrete array field `items` with interface name `Foo`. -/
def c7ArrayField : Field :=
  .mk "array" (some "items") false false false [] [Field.base "text" (some "label")]
    [] [] none (some "Foo") none none [] none

/-- A second occurrence of the same interface-named shape under another
field name. -/
def c7ArrayField2 : Field :=
  .mk "array" (some "more") false false false [] [Field.base "text" (some "label")]
    [] [] none (some "Foo") none none [] none

/-- A one-collection config in which the `Foo` array shape occurs twice. -/
def c7Config : ConfigModel :=
  { collections := [{ slug := "posts", fields := [c7ArrayField, c7ArrayField2] }] }

/-- The derivation pass of `c7Config`. -/
def c7Pass : ConfigPass :=
  match configDerivationPass c7Config none with
  | .ok cp => cp
  | .error _ => { entityDefs := [], ifaceDefs := [], jobsPart := none }

/-- The full config schema of `c7Config`. -/
def c7Js : JVal :=
  match configToJSONSchema c7Config none with
  | .ok j => j
  | .error _ => .null

/-- The schema recorded under the interface name `Foo`. -/
def c7FooSchema : JVal :=
  (List.lookup "Foo" c7Pass.ifaceDefs).getD .null

/-- Witness for C7: on `c7Config` the definition `Foo` reaches the
top-level definitions, and both occurrences of the field derive to the
`$ref`. -/
theorem c7_interfaceNameLiftedAndRefed_witness :
    fieldsToJSONSchemaAux [] none [Field.base "text" (some "label")]
        { fieldSchemas := [], requiredNames := [], defs := [] } =
      .ok { fieldSchemas := [("label", .obj [("type", .arr [.str "string", .str "null"])])],
            requiredNames := [], defs := [] } ∧
    stepField [] none { fieldSchemas := [], requiredNames := [], defs := [] } c7ArrayField =
      .ok { fieldSchemas := [("items", refDefinition (some "Foo"))],
            requiredNames := [],
            defs := [("Foo", c7FooSchema)] } ∧
    configDerivationPass c7Config none = .ok c7Pass ∧
    List.lookup "Foo" c7Pass.ifaceDefs = some c7FooSchema ∧
    configToJSONSchema c7Config none = .ok c7Js ∧
    (jvalField c7Js "definitions").bind (fun defsObj => jvalField defsObj "Foo") =
      some c7FooSchema ∧
    jvalPath c7Js ["definitions", "posts", "properties", "items"] =
      some (refDefinition (some "Foo")) ∧
    jvalPath c7Js ["definitions", "posts", "properties", "more"] =
      some (refDefinition (some "Foo")) := by
  refine ⟨rfl, ?_, rfl, rfl, rfl, ?_, rfl, rfl⟩
  · exact c7_interfaceNameLiftedAndRefed.1 [] none
      { fieldSchemas := [], requiredNames := [], defs := [] } "items" "Foo"
      false false false [] [Field.base "text" (some "label")] [] [] none none none none
      { fieldSchemas := [("label", .obj [("type", .arr [.str "string", .str "null"])])],
        requiredNames := [], defs := [] } rfl
  · exact c7_interfaceNameLiftedAndRefed.2 c7Config none c7Pass "Foo" c7FooSchema c7Js
      rfl rfl rfl (by decide) rfl (by decide) rfl

mutual

/-- A field free of misconfigured rich text: every `richText` field in
the subtree carries a sanitized editor. -/
def richTextOkField : Field → Bool
  | .mk t _ _ _ _ _ fs bs tbs _ _ ed _ _ _ =>
    (if t = "richText" then
       match ed with
       | some (.sanitized _) => true
       | _ => false
     else true)
      && richTextOkList fs && richTextOkBlocks bs && richTextOkTabs tbs

/-- `richTextOkField` over a field list. -/
def richTextOkList : List Field → Bool
  | [] => true
  | f :: rest => richTextOkField f && richTextOkList rest

/-- `richTextOkField` over block definitions. -/
def richTextOkBlocks : List BlockDef → Bool
  | [] => true
  | .mk _ _ bfs :: rest => richTextOkList bfs && richTextOkBlocks rest

/-- `richTextOkField` over tab definitions. -/
def richTextOkTabs : List TabDef → Bool
  | [] => true
  | .mk _ tfs :: rest => richTextOkList tfs && richTextOkTabs rest

end

/-- Totality of the derivation on field models free of misconfigured
rich-text fields: no construct other than the two richText throws can
fail. -/
theorem derivationTotal (cit : List (String × String)) (cfg : Option ConfigModel) :
    (∀ (fields : List Field) (acc : FAcc), richTextOkList fields = true →
        ∃ acc', fieldsToJSONSchemaAux cit cfg fields acc = .ok acc') ∧
    (∀ (acc : FAcc) (f : Field), richTextOkField f = true →
        ∃ acc', stepField cit cfg acc f = .ok acc') ∧
    (∀ (bs : List BlockDef) (defs : Defs), richTextOkBlocks bs = true →
        ∃ r, blocksToItems cit cfg bs defs = .ok r) ∧
    (∀ (tbs : List TabDef) (acc : FAcc), richTextOkTabs tbs = true →
        ∃ acc', tabsStep cit cfg tbs acc = .ok acc') := by
  have hind := fieldsToJSONSchemaAux.mutual_induct cit cfg
    (fun fields acc => richTextOkList fields = true →
      ∃ acc', fieldsToJSONSchemaAux cit cfg fields acc = .ok acc')
    (fun acc f => richTextOkField f = true →
      ∃ acc', stepField cit cfg acc f = .ok acc')
    (fun bs defs => richTextOkBlocks bs = true →
      ∃ r, blocksToItems cit cfg bs defs = .ok r)
    (fun tbs acc => richTextOkTabs tbs = true →
      ∃ acc', tabsStep cit cfg tbs acc = .ok acc')
  refine hind ?_ ?_ ?_ ?_ ?_ ?_ ?_ ?_ ?_ ?_ ?_ ?_ ?_ ?_ ?_
  · -- row/collapsible, child derivation errors: impossible under the predicate
    intro acc t nm rq cd hM opts fs bs tbs rel ifc ed js tss col hT e herr ih hok
    simp only [richTextOkField, Bool.and_eq_true] at hok
    obtain ⟨c, hc⟩ := ih hok.1.1.2
    rw [hc] at herr
    cases herr
  · -- row/collapsible, child ok
    intro acc t nm rq cd hM opts fs bs tbs rel ifc ed js tss col hT acc1 heq ih hok
    simp only [stepField]
    rw [if_pos hT]
    rw [heq]
    exact ⟨_, rfl⟩
  · -- tabs
    intro acc nm rq cd hM opts fs bs tbs rel ifc ed js tss col hT isReq req1 ih hok
    simp only [richTextOkField, Bool.and_eq_true] at hok
    obtain ⟨acc', h⟩ := ih hok.2
    exact ⟨acc', h⟩
  · -- core errors: only richText could error and the predicate excludes it
    intro acc t nm rq cd hM opts fs bs tbs rel ifc ed js tss col h1 h2 e isReq core
      hcore ih2 ih1 hok
    exfalso
    simp only [richTextOkField, Bool.and_eq_true] at hok
    obtain ⟨⟨⟨hokt, hokfs⟩, hokbs⟩, hoktabs⟩ := hok
    unfold_let core isReq at hcore
    by_cases h3 : t = "text"
    · rw [if_pos h3] at hcore; cases hcore
    rw [if_neg h3] at hcore
    by_cases h4 : t = "textarea" ∨ t = "code" ∨ t = "email" ∨ t = "date"
    · rw [if_pos h4] at hcore; cases hcore
    rw [if_neg h4] at hcore
    by_cases h5 : t = "number"
    · rw [if_pos h5] at hcore; cases hcore
    rw [if_neg h5] at hcore
    by_cases h6 : t = "checkbox"
    · rw [if_pos h6] at hcore; cases hcore
    rw [if_neg h6] at hcore
    by_cases h7 : t = "json"
    · rw [if_pos h7] at hcore; cases hcore
    rw [if_neg h7] at hcore
    by_cases h8 : t = "richText"
    · rw [if_pos h8] at hcore
      rw [if_pos h8] at hokt
      cases ed with
      | none => simp at hokt
      | some ec =>
        cases ec with
        | unsanitized => simp at hokt
        | sanitized os => cases os <;> cases hcore
    rw [if_neg h8] at hcore
    by_cases h9 : t = "radio"
    · rw [if_pos h9] at hcore; cases hcore
    rw [if_neg h9] at hcore
    by_cases h10 : t = "select"
    · rw [if_pos h10] at hcore; cases hcore
    rw [if_neg h10] at hcore
    by_cases h11 : t = "point"
    · rw [if_pos h11] at hcore; cases hcore
    rw [if_neg h11] at hcore
    by_cases h12 : t = "join"
    · rw [if_pos h12] at hcore; cases hcore
    rw [if_neg h12] at hcore
    by_cases h13 : t = "upload" ∨ t = "relationship"
    · rw [if_pos h13] at hcore
      rcases rel with _ | rt
      · cases hM <;> cases hcore
      · rcases rt with st | ss
        · cases hM <;> cases hcore
        · cases hM <;> cases hcore
    rw [if_neg h13] at hcore
    by_cases h14 : t = "blocks"
    · rw [if_pos h14] at hcore
      obtain ⟨r, hr⟩ := ih2 hokbs
      obtain ⟨items, defs2⟩ := r
      rw [hr] at hcore
      cases hcore
    rw [if_neg h14] at hcore
    by_cases h15 : t = "array"
    · rw [if_pos h15] at hcore
      obtain ⟨c, hc⟩ := ih1 hokfs
      rw [hc] at hcore
      cases ifc <;> cases hcore
    rw [if_neg h15] at hcore
    by_cases h16 : t = "group"
    · rw [if_pos h16] at hcore
      obtain ⟨c, hc⟩ := ih1 hokfs
      rw [hc] at hcore
      cases ifc <;> cases hcore
    rw [if_neg h16] at hcore
    cases hcore
  · -- core ok
    intro acc t nm rq cd hM opts fs bs tbs rel ifc ed js tss col h1 h2 fsc defs1
      isReq core hcore ih2 ih1 hok
    unfold_let core isReq at hcore
    simp only [stepField]
    rw [if_neg h1, if_neg h2]
    rw [hcore]
    exact ⟨_, rfl⟩
  · -- field-list nil
    intro acc _
    exact ⟨acc, rfl⟩
  · -- field-list cons, head errors: impossible
    intro f rest acc e herr ihf hok
    simp only [richTextOkList, Bool.and_eq_true] at hok
    obtain ⟨acc1, h1⟩ := ihf hok.1
    rw [h1] at herr
    cases herr
  · -- field-list cons, head ok
    intro f rest acc acc1 heq ihf ihrest hok
    simp only [richTextOkList, Bool.and_eq_true] at hok
    obtain ⟨acc2, h2⟩ := ihrest hok.2
    refine ⟨acc2, ?_⟩
    rw [fieldsToJSONSchemaAux, heq]
    exact h2
  · -- blocks nil
    intro defs _
    exact ⟨([], defs), rfl⟩
  · -- blocks cons, child errors: impossible
    intro slug ifc bfs rest defs e herr ihb hok
    simp only [richTextOkBlocks, Bool.and_eq_true] at hok
    obtain ⟨c, hc⟩ := ihb hok.1
    rw [hc] at herr
    cases herr
  · -- blocks cons, child ok but tail errors: impossible
    intro slug ifc bfs rest defs acc1 heq blockSchema next e herr ihb ihrest hok
    simp only [richTextOkBlocks, Bool.and_eq_true] at hok
    obtain ⟨r, hr⟩ := ihrest hok.2
    rw [hr] at herr
    cases herr
  · -- blocks cons, both ok
    intro slug ifc bfs rest defs acc1 heq blockSchema next items defs1 htail ihb ihrest hok
    refine ⟨(next.1 :: items, defs1), ?_⟩
    rw [blocksToItems, heq]
    simp only []
    unfold_let next blockSchema at htail
    rw [htail]
  · -- tabs nil
    intro acc _
    exact ⟨acc, rfl⟩
  · -- tabs cons, child errors: impossible
    intro tn tfs rest acc e herr ihf hok
    simp only [richTextOkTabs, Bool.and_eq_true] at hok
    obtain ⟨c, hc⟩ := ihf hok.1
    rw [hc] at herr
    cases herr
  · -- tabs cons, child ok
    intro tn tfs rest acc acc1 heq acc2 ihf ihrest hok
    simp only [richTextOkTabs, Bool.and_eq_true] at hok
    obtain ⟨acc3, h3⟩ := ihrest hok.2
    refine ⟨acc3, ?_⟩
    rw [tabsStep, heq]
    unfold_let acc2 at h3
    exact h3

/-- A two-field model with no richText field, used to instantiate the C8
totality statement concretely. -/
def c8Fields : List Field :=
  [Field.setRequired (Field.base "text" (some "title")) true,
   Field.base "checkbox" (some "done")]

/-- C8: schema derivation never fails on a field model whose every
richText field carries a sanitized editor — and the only two
derivation-time failures are exactly the richText ones: a richText
field with no editor yields the missing-editor error carrying the
field, and a richText field whose editor is still in function
(unsanitized) form yields the unsanitized-editor error. -/
theorem c8_derivationFailsOnlyForRichTextEditors
    (cit : List (String × String)) (cfg : Option ConfigModel)
    (fields : List Field) (acc : FAcc)
    (hok : richTextOkList fields = true) :
    (∃ acc', fieldsToJSONSchemaAux cit cfg fields acc = .ok acc') ∧
    (∀ f : Field, f.type = "richText" → f.editor = none →
        stepField cit cfg acc f = .error (.missingEditor f)) ∧
    (∀ f : Field, f.type = "richText" → f.editor = some .unsanitized →
        stepField cit cfg acc f = .error .unsanitizedEditor) := by
  refine ⟨(derivationTotal cit cfg).1 fields acc hok, ?_, ?_⟩
  · intro f ht he
    obtain ⟨t, n, rq, cd, hM, opts, fs, bs, tbs, rel, ifc, ed, js, tss, col⟩ := f
    simp only [Field.type] at ht
    simp only [Field.editor] at he
    subst ht
    subst he
    rfl
  · intro f ht he
    obtain ⟨t, n, rq, cd, hM, opts, fs, bs, tbs, rel, ifc, ed, js, tss, col⟩ := f
    simp only [Field.type] at ht
    simp only [Field.editor] at he
    subst ht
    subst he
    rfl

/-- C8 witness: the hypothesis holds of the concrete richText-free field
list `c8Fields` and the statement follows at that input. -/
theorem c8_derivationFailsOnlyForRichTextEditors_witness :
    richTextOkList c8Fields = true ∧
    ((∃ acc', fieldsToJSONSchemaAux [] none c8Fields
        { fieldSchemas := [], requiredNames := [], defs := [] } = .ok acc') ∧
     (∀ f : Field, f.type = "richText" → f.editor = none →
        stepField [] none { fieldSchemas := [], requiredNames := [], defs := [] } f
          = .error (.missingEditor f)) ∧
     (∀ f : Field, f.type = "richText" → f.editor = some .unsanitized →
        stepField [] none { fieldSchemas := [], requiredNames := [], defs := [] } f
          = .error .unsanitizedEditor)) :=
  ⟨rfl, c8_derivationFailsOnlyForRichTextEditors [] none c8Fields
      { fieldSchemas := [], requiredNames := [], defs := [] } rfl⟩

end Payload
